import Mathlib

/-!
# university_tg_bot: the dialogue engine of `bot.js`

A shallow embedding of `src/bot.js`.

* JavaScript strings are `String`; `length` counts UTF-16 code units
  (`jsLength`), `trim` strips the ECMAScript white space set.
* JavaScript numbers are binary64 values; the model follows them on the safe
  integers `0 .. MAX_SAFE_INTEGER` (`2^53 - 1`), where `+ 1`, `- 1`, `/ 8`,
  `Math.ceil` and the rendering in a template literal are exact.  Telegram
  ids, row ids (MySQL integer columns) and time stamps are natural numbers
  that are stored, compared and rendered but never computed with.  Where the
  code computes with a number (`Number(s)`, the page arithmetic of the
  keyboards) the model answers `none` as soon as an operand leaves the safe
  integers: `none` means that the model does not follow the code there, not
  that the code fails.  `Number(s)` is followed on the tokens the keyboards
  emit: a (trimmed) run of decimal digits with a safe value, the empty string
  being `0`; other literals that JavaScript reads (`1e2`, `+5`, `0x10`, `1.0`)
  and the strings it reads as `NaN` are outside the model (`none`), and the
  handler that needed the number stops with `none`.
* The MySQL server is a value of `SqlEngine`: the function `LOWER`, the
  predicate `LIKE` and the order used by `ORDER BY name` depend on the
  collation of the columns, so the queries take them as a parameter.
  `asciiEngine` is the concrete engine used to evaluate the code.
* `await db.query(...)` becomes a pure function on `Db` (the four tables as
  lists of rows); `NOW()` is the argument `now`; the handlers thread a `World`
  (database, session map, directives sent to Telegram so far).
-/

namespace UniversityTgBot

/-! ## JavaScript strings and numbers -/

/-- The characters `String.prototype.trim` removes (WhiteSpace and
LineTerminator of ECMAScript). -/
def isJsWhiteSpace (c : Char) : Bool :=
  let n := c.toNat
  n == 0x09 || n == 0x0A || n == 0x0B || n == 0x0C || n == 0x0D || n == 0x20 ||
  n == 0xA0 || n == 0x1680 || (0x2000 ≤ n && n ≤ 0x200A) || n == 0x2028 ||
  n == 0x2029 || n == 0x202F || n == 0x205F || n == 0x3000 || n == 0xFEFF

/-- The method `s.trim()`. -/
def trim (s : String) : String :=
  ⟨((s.data.dropWhile isJsWhiteSpace).reverse.dropWhile isJsWhiteSpace).reverse⟩

/-- The property `s.length`: the number of UTF-16 code units. -/
def jsLength (s : String) : Nat :=
  (s.data.map (fun c => if c.toNat < 0x10000 then 1 else 2)).sum

/-- The method `s.startsWith(p)`. -/
def startsWith (s p : String) : Bool :=
  p.data.isPrefixOf s.data

/-- Splitting a list of characters at every `sep`; `cur` is the piece being
read, reversed. -/
def splitAux (sep : Char) : List Char → List Char → List String
  | [], cur => [⟨cur.reverse⟩]
  | c :: cs, cur =>
    if c = sep then ⟨cur.reverse⟩ :: splitAux sep cs [] else splitAux sep cs (c :: cur)

/-- The call `s.split(":")`. -/
def splitColon (s : String) : List String :=
  splitAux ':' s.data []

/-- The constant `Number.MAX_SAFE_INTEGER`, `2^53 - 1`: up to it every integer
is a binary64 value and integer arithmetic is exact. -/
def MAX_SAFE_INTEGER : Nat := 9007199254740991

/-- Reading a run of decimal digits, most significant first. -/
def parseDigits : List Char → Nat → Option Nat
  | [], acc => some acc
  | c :: cs, acc =>
    if c.isDigit then parseDigits cs (acc * 10 + (c.toNat - 48)) else none

/-- The conversion `Number(s)` on the modelled fragment: white space is
trimmed, the empty string is `0`, a run of decimal digits whose value is a
safe integer is that value.  Everything else is outside the fragment
(`none`): a run of digits beyond `MAX_SAFE_INTEGER` (the code rounds it to the
nearest binary64 value), the other numeric literals, and the strings read as
`NaN`. -/
def Number (s : String) : Option Nat :=
  let t := (trim s).data
  if t = [] then some 0
  else
    match parseDigits t 0 with
    | some n => if n ≤ MAX_SAFE_INTEGER then some n else none
    | none => none

/-- The conversion `Number(x || 0)` of the page handlers, for `x` a piece of a
split token: the empty string is falsy and gives `Number(0)`. -/
def NumberOr0 (x : Option String) : Option Nat :=
  match x with
  | none => some 0
  | some s => if s = "" then some 0 else Number s

/-! ## The session store -/

/-- The values of `step` the bot stores. -/
inductive Step
  | AWAIT_GROUP_PICK
  | AWAIT_GROUP_NAME_FOR_REQUEST
  deriving DecidableEq

/-- A session `{ step, temp }`; `temp` is `{}` or `{ page }`. -/
structure Session where
  step : Option Step
  temp : List (String × Nat)
  deriving DecidableEq

/-- The map `state`, from Telegram id to session, as an association list. -/
abbrev StateMap := List (Nat × Session)

/-- The method `Map.prototype.get`. -/
def mapGet (state : StateMap) (tgId : Nat) : Option Session :=
  (state.find? (fun e => e.1 == tgId)).map (fun e => e.2)

/-- The function `setState(tgId, step, temp)`: `state.set` overwrites the
entry of `tgId` where it stands, or adds one. -/
def setState (state : StateMap) (tgId : Nat) (step : Option Step)
    (temp : List (String × Nat)) : StateMap :=
  if state.any (fun e => e.1 == tgId) then
    state.map (fun e => if e.1 == tgId then (tgId, { step := step, temp := temp }) else e)
  else
    state ++ [(tgId, { step := step, temp := temp })]

/-- The function `getState(tgId)`. -/
def getState (state : StateMap) (tgId : Nat) : Session :=
  match mapGet state tgId with
  | some s => s
  | none => { step := none, temp := [] }

/-- The function `clearState(tgId)`: `state.delete`. -/
def clearState (state : StateMap) (tgId : Nat) : StateMap :=
  state.filter (fun e => !(e.1 == tgId))

/-! ## The database -/

/-- What the queries need from the MySQL server. -/
structure SqlEngine where
  /-- The SQL function `LOWER`. -/
  LOWER : String → String
  /-- The SQL predicate `subject LIKE pattern`. -/
  LIKE : String → String → Bool
  /-- The order of `ORDER BY name`. -/
  nameLe : String → String → Bool

/-- A row of `groups`. -/
structure GroupRow where
  id : Nat
  name : String
  is_active : Bool
  deriving DecidableEq

/-- The columns `id, name` of a group, as the queries select them. -/
structure GroupView where
  id : Nat
  name : String
  deriving DecidableEq

/-- The column `status` of `group_requests`. -/
inductive Status
  | pending
  | approved
  | rejected
  deriving DecidableEq

/-- A row of `group_requests`. -/
structure RequestRow where
  id : Nat
  requested_name : String
  requested_by_tg_id : Nat
  status : Status
  decided_by_tg_id : Option Nat
  decided_at : Option Nat
  created_at : Nat
  deriving DecidableEq

/-- The columns `id, requested_name, requested_by_tg_id` of a request, as
`approveRequest` and `rejectRequest` select and return them. -/
structure RequestView where
  id : Nat
  requested_name : String
  requested_by_tg_id : Nat
  deriving DecidableEq

/-- The columns `id, requested_name, requested_by_tg_id, created_at` selected
by `getPendingRequestsPage`. -/
structure PendingView where
  id : Nat
  requested_name : String
  requested_by_tg_id : Nat
  created_at : Nat
  deriving DecidableEq

/-- A row of `users`; `role` may be `NULL`. -/
structure UserRow where
  tg_id : Nat
  role : Option String
  deriving DecidableEq

/-- A row of `user_group`. -/
structure UserGroupRow where
  user_tg_id : Nat
  group_id : Nat
  deriving DecidableEq

/-- The four tables. -/
structure Db where
  users : List UserRow
  groups : List GroupRow
  user_group : List UserGroupRow
  group_requests : List RequestRow
  deriving DecidableEq

/-- Modelled from the spec: the table declarations are not part of the
repository.  An `AUTO_INCREMENT` id given to a new row: one more than the
largest id in the table. -/
def freshId (ids : List Nat) : Nat :=
  ids.foldl max 0 + 1

/-- Modelled from the spec: the table declarations are not part of the
repository.  The role of a new user (the spec: role `student` by default). -/
def defaultRole : Option String := some "student"

/-- Modelled from the spec: the table declarations are not part of the
repository.  The active flag of a new group (the picker lists active groups
and approval is how a group gets created). -/
def defaultIsActive : Bool := true

/-- Modelled from the spec: the table declarations are not part of the
repository.  The status of a new request (the spec: `create` inserts a
pending request). -/
def defaultStatus : Status := Status.pending

/-- The projection `SELECT id, name`. -/
def GroupRow.view (g : GroupRow) : GroupView :=
  { id := g.id, name := g.name }

/-- The projection `SELECT id, requested_name, requested_by_tg_id`. -/
def RequestRow.view (r : RequestRow) : RequestView :=
  { id := r.id, requested_name := r.requested_name,
    requested_by_tg_id := r.requested_by_tg_id }

/-- The projection `SELECT id, requested_name, requested_by_tg_id, created_at`. -/
def RequestRow.pendingView (r : RequestRow) : PendingView :=
  { id := r.id, requested_name := r.requested_name,
    requested_by_tg_id := r.requested_by_tg_id, created_at := r.created_at }

/-- The constant `PAGE_SIZE`. -/
def PAGE_SIZE : Nat := 8

/-- The function `upsertUser(tgId)`: `INSERT ... ON DUPLICATE KEY UPDATE
tg_id = VALUES(tg_id)`. -/
def upsertUser (db : Db) (tgId : Nat) : Db :=
  if db.users.any (fun u => u.tg_id == tgId) then db
  else { db with users := db.users ++ [{ tg_id := tgId, role := defaultRole }] }

/-- The function `getUserRole(tgId)`: `rows[0]?.role || "student"`. -/
def getUserRole (db : Db) (tgId : Nat) : String :=
  match (db.users.filter (fun u => u.tg_id == tgId)).head? with
  | some u =>
    match u.role with
    | some r => if r = "" then "student" else r
    | none => "student"
  | none => "student"

/-- The function `getGroupsPage(page)`: the page of active groups in name
order, and the number of active groups. -/
def getGroupsPage (E : SqlEngine) (db : Db) (page : Nat) : List GroupView × Nat :=
  let offset := page * PAGE_SIZE
  let active := db.groups.filter (fun g => g.is_active)
  let rows := (((active.insertionSort (fun a b => E.nameLe a.name b.name = true)).drop
    offset).take PAGE_SIZE).map GroupRow.view
  (rows, active.length)

/-- The object `{ type, rows }` returned by `findGroupByText`. -/
structure FindResult where
  type : String
  rows : List GroupView
  deriving DecidableEq

/-- The first query of `findGroupByText`:
`WHERE is_active=1 AND LOWER(name)=LOWER(?) LIMIT 5` with `[t]`. -/
def exactRows (E : SqlEngine) (db : Db) (t : String) : List GroupView :=
  ((db.groups.filter (fun g => g.is_active && E.LOWER g.name == E.LOWER t)).take 5).map
    GroupRow.view

/-- The second query of `findGroupByText`:
`WHERE is_active=1 AND name LIKE ? ORDER BY name LIMIT 10` with the pattern
`%t%`. -/
def likeRows (E : SqlEngine) (db : Db) (t : String) : List GroupView :=
  (((db.groups.filter (fun g => g.is_active && E.LIKE g.name ("%" ++ t ++ "%"))).insertionSort
    (fun a b => E.nameLe a.name b.name = true)).take 10).map GroupRow.view

/-- The function `findGroupByText(text)`. -/
def findGroupByText (E : SqlEngine) (db : Db) (text : String) : FindResult :=
  let t := trim text
  let rows := exactRows E db t
  if rows.length ≠ 0 then { type := "exact", rows := rows }
  else
    let rows := likeRows E db t
    if rows.length = 1 then { type := "single", rows := rows }
    else if rows.length > 1 then { type := "many", rows := rows }
    else { type := "none", rows := [] }

/-- The function `setUserGroup(tgId, groupId)`: `INSERT ... ON DUPLICATE KEY
UPDATE group_id=VALUES(group_id)`, the key being the user. -/
def setUserGroup (db : Db) (tgId groupId : Nat) : Db :=
  if db.user_group.any (fun r => r.user_tg_id == tgId) then
    { db with user_group := db.user_group.map (fun r =>
        if r.user_tg_id == tgId then { r with group_id := groupId } else r) }
  else
    { db with user_group := db.user_group ++ [{ user_tg_id := tgId, group_id := groupId }] }

/-- The function `groupExists(name)`: `WHERE LOWER(name)=LOWER(?) LIMIT 1`
with `[name.trim()]`. -/
def groupExists (E : SqlEngine) (db : Db) (name : String) : Bool :=
  ((db.groups.filter (fun g => E.LOWER g.name == E.LOWER (trim name))).take 1).length > 0

/-- The function `pendingRequestExists(name)`:
`WHERE LOWER(requested_name)=LOWER(?) AND status='pending' LIMIT 1` with
`[name.trim()]`. -/
def pendingRequestExists (E : SqlEngine) (db : Db) (name : String) : Bool :=
  ((db.group_requests.filter (fun r =>
    E.LOWER r.requested_name == E.LOWER (trim name) && r.status == Status.pending)).take
      1).length > 0

/-- The function `createGroupRequest(tgId, name)`:
`INSERT INTO group_requests (requested_name, requested_by_tg_id)` with
`[name.trim(), tgId]`. -/
def createGroupRequest (db : Db) (now tgId : Nat) (name : String) : Db :=
  { db with group_requests := db.group_requests ++
      [{ id := freshId (db.group_requests.map (fun r => r.id)),
         requested_name := trim name,
         requested_by_tg_id := tgId,
         status := defaultStatus,
         decided_by_tg_id := none,
         decided_at := none,
         created_at := now }] }

/-- The function `getPendingRequestsPage(page)`: the page of pending requests
by creation time, and the number of pending requests. -/
def getPendingRequestsPage (db : Db) (page : Nat) : List PendingView × Nat :=
  let offset := page * PAGE_SIZE
  let pending := db.group_requests.filter (fun r => r.status == Status.pending)
  let rows := (((pending.insertionSort (fun a b => a.created_at ≤ b.created_at)).drop
    offset).take PAGE_SIZE).map RequestRow.pendingView
  (rows, pending.length)

/-- The query shared by `approveRequest` and `rejectRequest`:
`WHERE id=? AND status='pending' LIMIT 1`. -/
def selectPending (db : Db) (requestId : Nat) : List RequestView :=
  ((db.group_requests.filter (fun r =>
    r.id == requestId && r.status == Status.pending)).take 1).map RequestRow.view

/-- The statement `UPDATE group_requests SET status=?, decided_by_tg_id=?,
decided_at=NOW() WHERE id=?`. -/
def updateDecision (db : Db) (status : Status) (adminTgId requestId now : Nat) : Db :=
  { db with group_requests := db.group_requests.map (fun r =>
      if r.id == requestId then
        { r with status := status, decided_by_tg_id := some adminTgId, decided_at := some now }
      else r) }

/-- The statement `INSERT INTO groups (name) VALUES (?)`. -/
def insertGroup (db : Db) (name : String) : Db :=
  { db with groups := db.groups ++
      [{ id := freshId (db.groups.map (fun g => g.id)), name := name,
         is_active := defaultIsActive }] }

/-- The function `approveRequest(adminTgId, requestId)`; `none` is `null`. -/
def approveRequest (E : SqlEngine) (db : Db) (now adminTgId requestId : Nat) :
    Option RequestView × Db :=
  match selectPending db requestId with
  | [] => (none, db)
  | req :: _ =>
    let exists_ := groupExists E db req.requested_name
    let db1 := if !exists_ then insertGroup db req.requested_name else db
    (some req, updateDecision db1 Status.approved adminTgId requestId now)

/-- The function `rejectRequest(adminTgId, requestId)`; `none` is `null`. -/
def rejectRequest (db : Db) (now adminTgId requestId : Nat) : Option RequestView × Db :=
  match selectPending db requestId with
  | [] => (none, db)
  | req :: _ => (some req, updateDecision db Status.rejected adminTgId requestId now)

/-! ## The keyboards -/

/-- An inline button `{ text, callback_data }`. -/
structure Button where
  text : String
  callback_data : String
  deriving DecidableEq

/-- A reply markup `{ inline_keyboard }`: rows of buttons. -/
structure Keyboard where
  inline_keyboard : List (List Button)
  deriving DecidableEq

/-- The expression `Math.ceil(total / PAGE_SIZE)` on natural numbers. -/
def ceilDiv (total size : Nat) : Nat :=
  (total + size - 1) / size

/-- The expression `Math.max(0, Math.ceil(total / PAGE_SIZE) - 1)`. -/
def maxPageOf (total : Nat) : Nat :=
  (max 0 ((ceilDiv total PAGE_SIZE : Int) - 1)).toNat

/-- The array `nav` that both keyboards build, for the token domain
`domain`.  The arithmetic on `page` and `total` is followed on the safe
integers, where the binary64 operations of the code are exact; beyond them
the answer is `none`. -/
def navRow (domain : String) (page total : Nat) : Option (List Button) :=
  if page ≤ MAX_SAFE_INTEGER ∧ total ≤ MAX_SAFE_INTEGER then
    let maxPage := maxPageOf total
    let nav : List Button := []
    let nav := if page > 0 then
      nav ++ [{ text := "◀️", callback_data := domain ++ ":page:" ++ toString (page - 1) }]
      else nav
    let nav := nav ++
      [{ text := "Стр. " ++ toString (page + 1) ++ "/" ++ toString (maxPage + 1),
         callback_data := "noop" }]
    let nav := if page < maxPage then
      nav ++ [{ text := "▶️", callback_data := domain ++ ":page:" ++ toString (page + 1) }]
      else nav
    some nav
  else none

/-- The function `groupsKeyboard(groups, page, total)`; `none` where `navRow`
is. -/
def groupsKeyboard (groups : List GroupView) (page total : Nat) : Option Keyboard :=
  let buttons : List (List Button) := groups.map (fun g =>
    [{ text := g.name, callback_data := "grp:pick:" ++ toString g.id }])
  match navRow "grp" page total with
  | none => none
  | some nav =>
    let buttons := buttons ++ [nav]
    let buttons := buttons ++
      [[{ text := "➕ Добавить группу", callback_data := "grp:req:new" }]]
    some { inline_keyboard := buttons }

/-- The two rows `requestsKeyboard` pushes for one request. -/
def requestRows (r : PendingView) : List (List Button) :=
  [[{ text := "📌 " ++ r.requested_name, callback_data := "noop" }],
   [{ text := "✅ Принять", callback_data := "req:approve:" ++ toString r.id },
    { text := "❌ Отклонить", callback_data := "req:reject:" ++ toString r.id }]]

/-- The function `requestsKeyboard(reqs, page, total)`; `none` where `navRow`
is. -/
def requestsKeyboard (reqs : List PendingView) (page total : Nat) : Option Keyboard :=
  let rows : List (List Button) := (reqs.map requestRows).flatten
  match navRow "req" page total with
  | none => none
  | some nav =>
    let rows := rows ++ [nav]
    some { inline_keyboard :=
      if rows.length ≠ 0 then rows else [[{ text := "Пусто", callback_data := "noop" }]] }

/-! ## The handlers -/

/-- A call of the Telegram client. -/
inductive Directive
  | sendMessage (chatId : Nat) (text : String) (reply_markup : Option Keyboard)
  | editMessageText (text : String) (chat_id message_id : Nat) (reply_markup : Option Keyboard)
  | answerCallbackQuery (id : String) (text : Option String) (show_alert : Bool)
  deriving DecidableEq

/-- What a handler reads and writes: the database, the map `state`, the calls
of the Telegram client made so far (oldest first), and the texts handed to
`findGroupByText` so far (oldest first). -/
structure World where
  db : Db
  state : StateMap
  out : List Directive
  resolved : List String
  deriving DecidableEq

/-- The fields of an incoming message the handlers read: `msg.from.id`,
`msg.chat.id`, `msg.text`. -/
structure Message where
  from_id : Nat
  chat_id : Nat
  text : Option String
  deriving DecidableEq

/-- The fields of a callback query the handler reads: `q.id`, `q.from.id`,
`q.message.chat.id`, `q.message.message_id`, `q.data`. -/
structure CallbackQuery where
  id : String
  from_id : Nat
  chat_id : Nat
  message_id : Nat
  data : Option String
  deriving DecidableEq

/-- Appending one call of the Telegram client. -/
def World.emit (w : World) (d : Directive) : World :=
  { w with out := w.out ++ [d] }

/-- The function `showGroupPicker(chatId, tgId, page, editMessageId)`; a
missing `editMessageId` is `none`, and `0` is falsy as well.  The result is
`none` where `groupsKeyboard` is. -/
def showGroupPicker (E : SqlEngine) (w : World) (chatId tgId page : Nat)
    (editMessageId : Option Nat) : Option World :=
  let (rows, total) := getGroupsPage E w.db page
  match groupsKeyboard rows page total with
  | none => none
  | some opts =>
    let w1 := match editMessageId with
      | some mid =>
        if mid ≠ 0 then
          w.emit (Directive.editMessageText
            "Выбери группу (кнопкой) или напиши её названием:" chatId mid (some opts))
        else
          w.emit (Directive.sendMessage chatId
            "Выбери группу (кнопкой) или напиши её названием:" (some opts))
      | none =>
        w.emit (Directive.sendMessage chatId
          "Выбери группу (кнопкой) или напиши её названием:" (some opts))
    some { w1 with
      state := setState w1.state tgId (some Step.AWAIT_GROUP_PICK) [("page", page)] }

/-- The handler of `bot.onText(/\/start/, ...)`; `none` where `showGroupPicker`
is. -/
def onStart (E : SqlEngine) (msg : Message) (w : World) : Option World :=
  let tgId := msg.from_id
  let w1 := { w with db := upsertUser w.db tgId }
  showGroupPicker E w1 msg.chat_id tgId 0 none

/-- The handler of `bot.on("message", ...)`.  The result `none` is a thrown
exception (reading `res.rows[0].id` of an empty `rows`). -/
def onMessage (E : SqlEngine) (now : Nat) (msg : Message) (w : World) : Option World :=
  match msg.text with
  | none => some w
  | some text =>
    if text = "" || startsWith text "/" then some w
    else
      let tgId := msg.from_id
      let chatId := msg.chat_id
      let s := getState w.state tgId
      if s.step = some Step.AWAIT_GROUP_NAME_FOR_REQUEST then
        let name := trim text
        if jsLength name < 2 then
          some (w.emit (Directive.sendMessage chatId
            "Название слишком короткое. Введи ещё раз." none))
        else if groupExists E w.db name then
          some (w.emit (Directive.sendMessage chatId
            "Такая группа уже существует. Напиши /start и выбери её." none))
        else if pendingRequestExists E w.db name then
          some (w.emit (Directive.sendMessage chatId
            "Заявка на такую группу уже ожидает решения администратора." none))
        else
          let w1 := { w with db := createGroupRequest w.db now tgId name }
          let w2 := { w1 with state := clearState w1.state tgId }
          some (w2.emit (Directive.sendMessage chatId "Заявка отправлена администратору ✅" none))
      else if s.step = some Step.AWAIT_GROUP_PICK then
        let res := findGroupByText E w.db text
        let w0 := { w with resolved := w.resolved ++ [text] }
        if res.type = "exact" || res.type = "single" then
          match res.rows.head? with
          | none => none
          | some g =>
            let w1 := { w0 with db := setUserGroup w0.db tgId g.id }
            let w2 := { w1 with state := clearState w1.state tgId }
            some (w2.emit (Directive.sendMessage chatId
              ("Группа выбрана: " ++ g.name ++ " ✅") none))
        else if res.type = "many" then
          let kb : Keyboard :=
            { inline_keyboard :=
                res.rows.map (fun g =>
                  [{ text := g.name, callback_data := "grp:pick:" ++ toString g.id }]) ++
                [[{ text := "➕ Добавить группу", callback_data := "grp:req:new" }]] }
          some (w0.emit (Directive.sendMessage chatId
            "Нашёл несколько вариантов. Выбери нужный:" (some kb)))
        else
          some (w0.emit (Directive.sendMessage chatId
            "Такой группы нет. Можешь нажать «➕ Добавить группу» в списке." none))
      else some w

/-- The handler of `bot.on("callback_query", ...)`.  The result `none` is a
token argument outside the fragment of `Number`, or a page or total outside
the safe integers. -/
def onCallbackQuery (E : SqlEngine) (now : Nat) (q : CallbackQuery) (w : World) :
    Option World :=
  let tgId := q.from_id
  let chatId := q.chat_id
  let mid := q.message_id
  let data := q.data.getD ""
  if data = "noop" then some (w.emit (Directive.answerCallbackQuery q.id none false))
  else if startsWith data "grp:page:" then
    match NumberOr0 (splitColon data)[2]? with
    | none => none
    | some page =>
      match showGroupPicker E w chatId tgId page (some mid) with
      | none => none
      | some w1 => some (w1.emit (Directive.answerCallbackQuery q.id none false))
  else if startsWith data "grp:pick:" then
    match (splitColon data)[2]?.bind Number with
    | none => none
    | some groupId =>
      let w1 := { w with db := setUserGroup w.db tgId groupId }
      let w2 := { w1 with state := clearState w1.state tgId }
      let w3 := w2.emit (Directive.answerCallbackQuery q.id (some "Группа выбрана ✅") false)
      some (w3.emit (Directive.sendMessage chatId "Группа сохранена ✅" none))
  else if data = "grp:req:new" then
    let w1 := { w with state := setState w.state tgId (some Step.AWAIT_GROUP_NAME_FOR_REQUEST) [] }
    let w2 := w1.emit (Directive.answerCallbackQuery q.id none false)
    some (w2.emit (Directive.sendMessage chatId
      "Введи название группы, которую нужно добавить:" none))
  else if startsWith data "req:page:" then
    let role := getUserRole w.db tgId
    if role ≠ "admin" then
      some (w.emit (Directive.answerCallbackQuery q.id (some "Недостаточно прав") true))
    else
      match NumberOr0 (splitColon data)[2]? with
      | none => none
      | some page =>
        let (rows, total) := getPendingRequestsPage w.db page
        match requestsKeyboard rows page total with
        | none => none
        | some kb =>
          let w1 := w.emit (Directive.editMessageText "Заявки на добавление групп:" chatId
            mid (some kb))
          some (w1.emit (Directive.answerCallbackQuery q.id none false))
  else if startsWith data "req:approve:" then
    let role := getUserRole w.db tgId
    if role ≠ "admin" then
      some (w.emit (Directive.answerCallbackQuery q.id (some "Недостаточно прав") true))
    else
      match (splitColon data)[2]?.bind Number with
      | none => none
      | some requestId =>
        match approveRequest E w.db now tgId requestId with
        | (some req, db1) =>
          let w1 := { w with db := db1 }
          let w2 := w1.emit (Directive.answerCallbackQuery q.id (some "Принято ✅") false)
          some (w2.emit (Directive.sendMessage req.requested_by_tg_id
            ("Заявка на группу \"" ++ req.requested_name ++ "\" принята ✅") none))
        | (none, db1) =>
          let w1 := { w with db := db1 }
          some (w1.emit (Directive.answerCallbackQuery q.id (some "Уже обработано") false))
  else if startsWith data "req:reject:" then
    let role := getUserRole w.db tgId
    if role ≠ "admin" then
      some (w.emit (Directive.answerCallbackQuery q.id (some "Недостаточно прав") true))
    else
      match (splitColon data)[2]?.bind Number with
      | none => none
      | some requestId =>
        match rejectRequest w.db now tgId requestId with
        | (some req, db1) =>
          let w1 := { w with db := db1 }
          let w2 := w1.emit (Directive.answerCallbackQuery q.id (some "Отклонено ❌") false)
          some (w2.emit (Directive.sendMessage req.requested_by_tg_id
            ("Заявка на группу \"" ++ req.requested_name ++ "\" отклонена ❌") none))
        | (none, db1) =>
          let w1 := { w with db := db1 }
          some (w1.emit (Directive.answerCallbackQuery q.id (some "Уже обработано") false))
  else some w

/-! ## A concrete engine -/

/-- The function `LOWER` on ASCII letters. -/
def asciiLower (s : String) : String :=
  ⟨s.data.map Char.toLower⟩

/-- Matching a `LIKE` pattern against a subject: `%` is any run of characters,
`_` any one character, a backslash (code 92) takes the next pattern character
literally. -/
def likeMatch : List Char → List Char → Bool
  | [], s => s.isEmpty
  | p :: ps, s =>
    if p = '%' then s.tails.any (fun t => likeMatch ps t)
    else
      match s with
      | [] => false
      | c :: cs =>
        if p = '_' then likeMatch ps cs
        else if p.toNat = 92 then
          match ps with
          | [] => c == p && cs.isEmpty
          | e :: rest => c == e && likeMatch rest cs
        else c == p && likeMatch ps cs

/-- The order of code points, on lists of characters. -/
def lexLe : List Char → List Char → Bool
  | [], _ => true
  | _ :: _, [] => false
  | a :: as, b :: bs => a.toNat < b.toNat || (a.toNat == b.toNat && lexLe as bs)

/-- A case-insensitive engine for ASCII names. -/
def asciiEngine : SqlEngine where
  LOWER := asciiLower
  LIKE := fun subject pattern => likeMatch (asciiLower pattern).data (asciiLower subject).data
  nameLe := fun a b => lexLe (asciiLower a).data (asciiLower b).data


/-- The ten decimal digits, the characters of a rendered natural number. -/
def decimalDigits : List Char := ['0', '1', '2', '3', '4', '5', '6', '7', '8', '9']

/-! ## Example databases -/

/-- A database with a student `5`, an admin `1`, the group `Biology` and a
pending request `7` for `biology`. -/
def biologyDb : Db :=
  { users := [{ tg_id := 5, role := some "student" }, { tg_id := 1, role := some "admin" }],
    groups := [{ id := 1, name := "Biology", is_active := true }],
    user_group := [],
    group_requests :=
      [{ id := 7, requested_name := "biology", requested_by_tg_id := 6,
         status := Status.pending, decided_by_tg_id := none, decided_at := none,
         created_at := 1 }] }

/-- A database where the group ` bio` and the pending request `7` for ` bio`
both carry a leading space. -/
def paddedDb : Db :=
  { users := [{ tg_id := 1, role := some "admin" }],
    groups := [{ id := 1, name := " bio", is_active := true }],
    user_group := [],
    group_requests :=
      [{ id := 7, requested_name := " bio", requested_by_tg_id := 6,
         status := Status.pending, decided_by_tg_id := none, decided_at := none,
         created_at := 1 }] }

/-- A world where the only group is `A` and user `5` has been asked for the
name of a group to add. -/
def namingWorld : World :=
  { db := { users := [{ tg_id := 5, role := some "student" }],
            groups := [{ id := 1, name := "A", is_active := true }],
            user_group := [], group_requests := [] },
    state := [(5, { step := some Step.AWAIT_GROUP_NAME_FOR_REQUEST, temp := [] })],
    out := [], resolved := [] }

/-- A world where the only group is `Math` and user `5` is picking a group. -/
def pickingWorld : World :=
  { db := { users := [{ tg_id := 5, role := some "student" }],
            groups := [{ id := 1, name := "Math", is_active := true }],
            user_group := [], group_requests := [] },
    state := [(5, { step := some Step.AWAIT_GROUP_PICK, temp := [("page", 0)] })],
    out := [], resolved := [] }

/-! ## Properties named by the specification -/

/-- The pagination contract for a navigation row `nav` of the token domain
`domain`, at page index `page` when the last page index is `maxPage`: a
previous-page button (the one labelled `◀️`) is there exactly when
`page > 0` and carries `<domain>:page:<page-1>`; a next-page button (the one
labelled `▶️`) is there exactly when `page < maxPage` and carries
`<domain>:page:<page+1>`; the label button reads page `page+1` of
`maxPage+1` and carries `noop`; and the row has no other button. -/
def NavSpec (domain : String) (page maxPage : Nat) (nav : List Button) : Prop :=
  ((∃ b ∈ nav, b.text = "◀️") ↔ 0 < page) ∧
  (∀ b ∈ nav, b.text = "◀️" → b.callback_data = domain ++ ":page:" ++ toString (page - 1)) ∧
  ((∃ b ∈ nav, b.text = "▶️") ↔ page < maxPage) ∧
  (∀ b ∈ nav, b.text = "▶️" → b.callback_data = domain ++ ":page:" ++ toString (page + 1)) ∧
  (∃ b ∈ nav, b.text = "Стр. " ++ toString (page + 1) ++ "/" ++ toString (maxPage + 1) ∧
    b.callback_data = "noop") ∧
  (∀ b ∈ nav, b.text = "◀️" ∨ b.text = "▶️" ∨
    (b.text = "Стр. " ++ toString (page + 1) ++ "/" ++ toString (maxPage + 1) ∧
      b.callback_data = "noop"))

/-- The pending-name uniqueness invariant: no two pending requests have
requested names that are equal after `LOWER`. -/
def PendingUnique (E : SqlEngine) (db : Db) : Prop :=
  (db.group_requests.filter (fun r => r.status == Status.pending)).Pairwise
    (fun a b => E.LOWER a.requested_name ≠ E.LOWER b.requested_name)

/-- The invariant can be checked on a given database. -/
instance (E : SqlEngine) (db : Db) : Decidable (PendingUnique E db) := by
  unfold PendingUnique
  infer_instance

/-- The events of the request ledger: a text message handled at time `now`, a
call of `approveRequest` and a call of `rejectRequest`. -/
inductive Event
  | message (now : Nat) (msg : Message)
  | approve (now adminTgId requestId : Nat)
  | reject (now adminTgId requestId : Nat)

/-- Handling one event to its end. -/
def handle (E : SqlEngine) (w : World) : Event → Option World
  | Event.message now msg => onMessage E now msg w
  | Event.approve now adminTgId requestId =>
    some { w with db := (approveRequest E w.db now adminTgId requestId).2 }
  | Event.reject now adminTgId requestId =>
    some { w with db := (rejectRequest w.db now adminTgId requestId).2 }

/-- Handling a sequence of events one after the other, none overlapping. -/
def run (E : SqlEngine) : List Event → World → Option World
  | [], w => some w
  | e :: es, w => (handle E w e).bind (run E es)

/-! ## The session store: lemmas -/

theorem find?_map_of_fixed {α : Type} (p : α → Bool) (f : α → α)
    (hf : ∀ x, p (f x) = p x) (hp : ∀ x, p x = true → f x = x) (l : List α) :
    (l.map f).find? p = l.find? p := by
  induction l with
  | nil => rfl
  | cons x xs ih =>
    rw [List.map_cons, List.find?_cons, List.find?_cons, hf x, ih]
    cases hx : p x with
    | true => simp [hp x hx]
    | false => rfl

theorem find?_filter_of_imp {α : Type} (p q : α → Bool)
    (hpq : ∀ x, p x = true → q x = true) (l : List α) :
    (l.filter q).find? p = l.find? p := by
  induction l with
  | nil => rfl
  | cons x xs ih =>
    rw [List.filter_cons, List.find?_cons]
    cases hq : q x with
    | true => simp only [if_true, List.find?_cons, ih]
    | false =>
      have hx : p x = false := by
        cases hx : p x with
        | true => rw [hpq x hx] at hq; cases hq
        | false => rfl
      simp [hx, ih]

theorem mapGet_setState_of_ne (state : StateMap) (a b : Nat) (step : Option Step)
    (temp : List (String × Nat)) (h : a ≠ b) :
    mapGet (setState state a step temp) b = mapGet state b := by
  unfold setState mapGet
  split
  · rw [find?_map_of_fixed]
    · intro x
      by_cases hx : x.1 = a
      · simp [hx]
      · simp [hx]
    · intro x hx
      have hxb : x.1 = b := by simpa using hx
      have hxa : ¬ (x.1 = a) := fun e => h (e.symm.trans hxb)
      simp [hxa]
  · simp [List.find?_append, h]

theorem mapGet_clearState_of_ne (state : StateMap) (a b : Nat) (h : a ≠ b) :
    mapGet (clearState state a) b = mapGet state b := by
  unfold clearState mapGet
  rw [find?_filter_of_imp]
  intro x hx
  have hxb : x.1 = b := by simpa using hx
  have hxa : ¬ (x.1 = a) := fun e => h (e.symm.trans hxb)
  simp [hxa]

theorem mapGet_clearState_self (state : StateMap) (a : Nat) :
    mapGet (clearState state a) a = none := by
  unfold clearState mapGet
  simp [List.find?_eq_none]

theorem getState_clearState_self (state : StateMap) (a : Nat) :
    getState (clearState state a) a = { step := none, temp := [] } := by
  unfold getState
  rw [mapGet_clearState_self]

/-- C10. Session isolation: for users `a ≠ b`, `getState b` gives the same
session after `setState a step temp` and after `clearState a` as before; and
`getState` of a user without an entry in the map is the default session
`{ step: null, temp: {} }` (the function is total: it never fails). -/
theorem session_isolation (state : StateMap) (a b : Nat) (step : Option Step)
    (temp : List (String × Nat)) (hab : a ≠ b) :
    getState (setState state a step temp) b = getState state b ∧
    getState (clearState state a) b = getState state b ∧
    ((∀ e ∈ state, e.1 ≠ b) → getState state b = { step := none, temp := [] }) := by
  refine ⟨?_, ?_, ?_⟩
  · unfold getState
    rw [mapGet_setState_of_ne state a b step temp hab]
  · unfold getState
    rw [mapGet_clearState_of_ne state a b hab]
  · intro hno
    have hnone : mapGet state b = none := by
      unfold mapGet
      rw [Option.map_eq_none', List.find?_eq_none]
      intro e he
      simpa using hno e he
    unfold getState
    rw [hnone]

theorem session_isolation_witness :
    (1 : Nat) ≠ 2 ∧
    getState (setState [(2, { step := some Step.AWAIT_GROUP_PICK, temp := [("page", 3)] })] 1
      (some Step.AWAIT_GROUP_NAME_FOR_REQUEST) []) 2 =
      { step := some Step.AWAIT_GROUP_PICK, temp := [("page", 3)] } ∧
    getState ([] : StateMap) 2 = { step := none, temp := [] } :=
  ⟨by decide,
   (session_isolation [(2, { step := some Step.AWAIT_GROUP_PICK, temp := [("page", 3)] })] 1 2
      (some Step.AWAIT_GROUP_NAME_FOR_REQUEST) [] (by decide)).1,
   (session_isolation [] 1 2 none [] (by decide)).2.2 (by simp)⟩


/-! ## The request ledger: lemmas -/

theorem selectPending_updateDecision (db : Db) (status : Status) (adminTgId requestId now : Nat)
    (hs : status ≠ Status.pending) :
    selectPending (updateDecision db status adminTgId requestId now) requestId = [] := by
  unfold selectPending updateDecision
  have hf : List.filter (fun r : RequestRow => r.id == requestId && r.status == Status.pending)
      (db.group_requests.map (fun r =>
        if r.id == requestId then
          { r with status := status, decided_by_tg_id := some adminTgId,
                   decided_at := some now }
        else r)) = [] := by
    rw [List.filter_eq_nil_iff]
    intro r hr
    rw [List.mem_map] at hr
    obtain ⟨r0, _, rfl⟩ := hr
    by_cases h0 : r0.id = requestId
    · simp [h0, hs]
    · simp [h0]
  simp only [hf, List.take_nil, List.map_nil]

theorem selectPending_insertGroup (db : Db) (name : String) (requestId : Nat) :
    selectPending (insertGroup db name) requestId = selectPending db requestId := rfl

theorem approveRequest_after_decision (E : SqlEngine) (db : Db) (status : Status)
    (a1 a2 requestId t1 t2 : Nat) (hs : status ≠ Status.pending) :
    approveRequest E (updateDecision db status a1 requestId t1) t2 a2 requestId =
      (none, updateDecision db status a1 requestId t1) := by
  unfold approveRequest
  rw [selectPending_updateDecision db status a1 requestId t1 hs]

theorem rejectRequest_after_decision (db : Db) (status : Status)
    (a1 a2 requestId t1 t2 : Nat) (hs : status ≠ Status.pending) :
    rejectRequest (updateDecision db status a1 requestId t1) t2 a2 requestId =
      (none, updateDecision db status a1 requestId t1) := by
  unfold rejectRequest
  rw [selectPending_updateDecision db status a1 requestId t1 hs]

theorem approveRequest_cases (E : SqlEngine) (db : Db) (now adminTgId requestId : Nat) :
    (selectPending db requestId = [] ∧
      approveRequest E db now adminTgId requestId = (none, db)) ∨
    (∃ db1, (approveRequest E db now adminTgId requestId).2 =
      updateDecision db1 Status.approved adminTgId requestId now) := by
  unfold approveRequest
  cases h : selectPending db requestId with
  | nil => exact Or.inl ⟨rfl, rfl⟩
  | cons req rest => exact Or.inr ⟨_, rfl⟩

theorem rejectRequest_cases (db : Db) (now adminTgId requestId : Nat) :
    (selectPending db requestId = [] ∧
      rejectRequest db now adminTgId requestId = (none, db)) ∨
    (rejectRequest db now adminTgId requestId).2 =
      updateDecision db Status.rejected adminTgId requestId now := by
  unfold rejectRequest
  cases h : selectPending db requestId with
  | nil => exact Or.inl ⟨rfl, rfl⟩
  | cons req rest => exact Or.inr rfl

theorem approveRequest_of_none (E : SqlEngine) (db : Db) (now adminTgId requestId : Nat)
    (h : selectPending db requestId = []) :
    approveRequest E db now adminTgId requestId = (none, db) := by
  unfold approveRequest
  rw [h]

theorem rejectRequest_of_none (db : Db) (now adminTgId requestId : Nat)
    (h : selectPending db requestId = []) :
    rejectRequest db now adminTgId requestId = (none, db) := by
  unfold rejectRequest
  rw [h]

/-- C1. Idempotence of decisions: whatever the database, the request id, the
two admins and the two clock readings, a second `approveRequest` (or
`rejectRequest`) on the same request id right after a first one returns
`null` and leaves the database exactly as the first call left it (so status,
decider and decision time of every request are those of the first call, and
no group row is added).  The same holds when the second call is the other
decision. -/
theorem decision_idempotent (E : SqlEngine) (db : Db) (requestId a1 a2 t1 t2 : Nat) :
    approveRequest E (approveRequest E db t1 a1 requestId).2 t2 a2 requestId =
      (none, (approveRequest E db t1 a1 requestId).2) ∧
    rejectRequest (rejectRequest db t1 a1 requestId).2 t2 a2 requestId =
      (none, (rejectRequest db t1 a1 requestId).2) ∧
    rejectRequest (approveRequest E db t1 a1 requestId).2 t2 a2 requestId =
      (none, (approveRequest E db t1 a1 requestId).2) ∧
    approveRequest E (rejectRequest db t1 a1 requestId).2 t2 a2 requestId =
      (none, (rejectRequest db t1 a1 requestId).2) := by
  have hA := approveRequest_cases E db t1 a1 requestId
  have hR := rejectRequest_cases db t1 a1 requestId
  refine ⟨?_, ?_, ?_, ?_⟩
  · rcases hA with ⟨h0, h1⟩ | ⟨db1, h1⟩
    · rw [h1]; exact approveRequest_of_none E db t2 a2 requestId h0
    · rw [h1]; exact approveRequest_after_decision E db1 _ a1 a2 requestId t1 t2 (by decide)
  · rcases hR with ⟨h0, h1⟩ | h1
    · rw [h1]; exact rejectRequest_of_none db t2 a2 requestId h0
    · rw [h1]; exact rejectRequest_after_decision db _ a1 a2 requestId t1 t2 (by decide)
  · rcases hA with ⟨h0, h1⟩ | ⟨db1, h1⟩
    · rw [h1]; exact rejectRequest_of_none db t2 a2 requestId h0
    · rw [h1]; exact rejectRequest_after_decision db1 _ a1 a2 requestId t1 t2 (by decide)
  · rcases hR with ⟨h0, h1⟩ | h1
    · rw [h1]; exact approveRequest_of_none E db t2 a2 requestId h0
    · rw [h1]; exact approveRequest_after_decision E db _ a1 a2 requestId t1 t2 (by decide)


/-! ## The resolver -/

theorem exactRows_ne_nil_iff (E : SqlEngine) (db : Db) (t : String) :
    exactRows E db t ≠ [] ↔
      ∃ g ∈ db.groups, g.is_active = true ∧ E.LOWER g.name = E.LOWER t := by
  unfold exactRows
  rw [Ne, List.map_eq_nil_iff, List.take_eq_nil_iff]
  simp only [OfNat.ofNat_ne_zero, false_or, List.filter_eq_nil_iff, Bool.and_eq_true,
    beq_iff_eq, not_forall, not_not, exists_prop]

theorem mem_exactRows (E : SqlEngine) (db : Db) (t : String) (v : GroupView)
    (hv : v ∈ exactRows E db t) :
    ∃ g ∈ db.groups, g.is_active = true ∧ E.LOWER g.name = E.LOWER t ∧ g.view = v := by
  unfold exactRows at hv
  rw [List.mem_map] at hv
  obtain ⟨g, hg, rfl⟩ := hv
  have hg2 := List.mem_of_mem_take hg
  rw [List.mem_filter] at hg2
  simp only [Bool.and_eq_true, beq_iff_eq] at hg2
  exact ⟨g, hg2.1, hg2.2.1, hg2.2.2, rfl⟩

theorem findGroupByText_type (E : SqlEngine) (db : Db) (text : String) :
    ((findGroupByText E db text).type = "exact" ∧ exactRows E db (trim text) ≠ [] ∧
      (findGroupByText E db text).rows = exactRows E db (trim text)) ∨
    (((findGroupByText E db text).type = "single" ∨ (findGroupByText E db text).type = "many" ∨
      (findGroupByText E db text).type = "none") ∧ exactRows E db (trim text) = []) := by
  unfold findGroupByText
  by_cases h : (exactRows E db (trim text)).length ≠ 0
  · left
    simp only [h, ne_eq, not_false_eq_true, if_true, true_and, and_true]
    intro h0
    exact h (by rw [h0]; rfl)
  · right
    have h0 : exactRows E db (trim text) = [] := by
      rw [← List.length_eq_zero]; exact not_not.mp h
    simp only [h0, List.length_nil, ne_eq, not_true_eq_false, if_false, and_true]
    split
    · exact Or.inl rfl
    · split
      · exact Or.inr (Or.inl rfl)
      · exact Or.inr (Or.inr rfl)

/-- C3. Priority of the exact match in `findGroupByText`: whatever the groups
and the text, if some active group has a name equal to the trimmed text after
`LOWER`, the result has type `"exact"` and its rows are between one and five
groups, each of them active and equal to the trimmed text after `LOWER`
(whatever `LIKE` answers, that is however many groups contain the text); and
a result of type `"single"`, `"many"` or `"none"` is returned only when no
active group matches exactly. -/
theorem exact_match_wins (E : SqlEngine) (db : Db) (text : String) :
    ((∃ g ∈ db.groups, g.is_active = true ∧ E.LOWER g.name = E.LOWER (trim text)) →
      (findGroupByText E db text).type = "exact" ∧
      (findGroupByText E db text).rows ≠ [] ∧
      (findGroupByText E db text).rows.length ≤ 5 ∧
      ∀ v ∈ (findGroupByText E db text).rows,
        ∃ g ∈ db.groups, g.is_active = true ∧ E.LOWER g.name = E.LOWER (trim text) ∧
          g.view = v) ∧
    (((findGroupByText E db text).type = "single" ∨ (findGroupByText E db text).type = "many" ∨
      (findGroupByText E db text).type = "none") →
      ¬ ∃ g ∈ db.groups, g.is_active = true ∧ E.LOWER g.name = E.LOWER (trim text)) := by
  constructor
  · intro hex
    have hne := (exactRows_ne_nil_iff E db (trim text)).mpr hex
    rcases findGroupByText_type E db text with ⟨ht, _, hrows⟩ | ⟨_, h0⟩
    · refine ⟨ht, ?_, ?_, ?_⟩
      · rw [hrows]; exact hne
      · rw [hrows]
        unfold exactRows
        rw [List.length_map, List.length_take]
        exact Nat.min_le_left _ _
      · intro v hv
        rw [hrows] at hv
        exact mem_exactRows E db (trim text) v hv
    · exact absurd h0 hne
  · intro hty hex
    have hne := (exactRows_ne_nil_iff E db (trim text)).mpr hex
    rcases findGroupByText_type E db text with ⟨ht, _, _⟩ | ⟨_, h0⟩
    · rw [ht] at hty
      revert hty
      decide
    · exact hne h0

theorem exact_match_wins_witness :
    (findGroupByText asciiEngine
      { users := [], user_group := [], group_requests := [],
        groups := [{ id := 1, name := "Math", is_active := true },
                   { id := 2, name := "Math101", is_active := true },
                   { id := 3, name := "Math102", is_active := true }] } " math ").type =
      "exact" :=
  ((exact_match_wins asciiEngine
      { users := [], user_group := [], group_requests := [],
        groups := [{ id := 1, name := "Math", is_active := true },
                   { id := 2, name := "Math101", is_active := true },
                   { id := 3, name := "Math102", is_active := true }] } " math ").1
    ⟨{ id := 1, name := "Math", is_active := true }, by decide, by decide, by decide⟩).1


/-! ## The keyboards: lemmas -/

theorem ceilDiv_eq_ceil (total : Nat) :
    (ceilDiv total PAGE_SIZE : Int) = ⌈(total : ℚ) / 8⌉ := by
  symm
  rw [Int.ceil_eq_iff]
  unfold ceilDiv PAGE_SIZE
  generalize hk : (total + 8 - 1) / 8 = k
  have h1 : 8 * k < total + 8 := by omega
  have h3 : total ≤ 8 * k := by omega
  have h1q : (8 : ℚ) * (k : ℚ) < (total : ℚ) + 8 := by exact_mod_cast h1
  have h3q : (total : ℚ) ≤ 8 * (k : ℚ) := by exact_mod_cast h3
  constructor
  · rw [Int.cast_natCast, lt_div_iff₀ (by norm_num)]
    linarith
  · rw [Int.cast_natCast, div_le_iff₀ (by norm_num)]
    linarith

theorem maxPageOf_eq (total : Nat) :
    (maxPageOf total : Int) = max 0 (⌈(total : ℚ) / 8⌉ - 1) := by
  unfold maxPageOf
  rw [ceilDiv_eq_ceil]
  exact Int.toNat_of_nonneg (le_max_left _ _)

theorem label_ne_prev (x y : String) : "Стр. " ++ x ++ "/" ++ y ≠ "◀️" := by
  intro h
  have h2 := congrArg (fun s => s.data.head?) h
  simp [String.data_append] at h2

theorem label_ne_next (x y : String) : "Стр. " ++ x ++ "/" ++ y ≠ "▶️" := by
  intro h
  have h2 := congrArg (fun s => s.data.head?) h
  simp [String.data_append] at h2

theorem MAX_SAFE_INTEGER_eq : MAX_SAFE_INTEGER = 2 ^ 53 - 1 := by
  norm_num [MAX_SAFE_INTEGER]

theorem navRow_spec (domain : String) (page total : Nat)
    (hpage : page ≤ MAX_SAFE_INTEGER) (htotal : total ≤ MAX_SAFE_INTEGER) :
    ∃ nav, navRow domain page total = some nav ∧
      NavSpec domain page (maxPageOf total) nav := by
  have hp : ("◀️" : String) ≠ "▶️" := by decide
  have hl1 := label_ne_prev (toString (page + 1)) (toString (maxPageOf total + 1))
  have hl2 := label_ne_next (toString (page + 1)) (toString (maxPageOf total + 1))
  unfold navRow
  rw [if_pos ⟨hpage, htotal⟩]
  refine ⟨_, rfl, ?_⟩
  unfold NavSpec
  by_cases h1 : page > 0 <;> by_cases h2 : page < maxPageOf total <;>
    simp [h1, h2, hp, hp.symm, hl1, hl2, hl1.symm, hl2.symm]

theorem requestRows_length (reqs : List PendingView) :
    ((reqs.map requestRows).flatten).length = 2 * reqs.length := by
  induction reqs with
  | nil => rfl
  | cons r rs ih =>
    simp only [List.map_cons, List.flatten_cons, List.length_append, ih, List.length_cons]
    simp [requestRows]
    omega

/-- C8. Pagination: for every page index `page` and every `total` among the
safe integers (`0 .. 2^53 - 1`, where the arithmetic of the code is exact), the
number `maxPage` that both keyboards compute is `max(0, ceil(total/8) - 1)`;
both keyboards are built, and the navigation row of `groupsKeyboard` (the row
after the group rows, before the add-group row) and the navigation row of
`requestsKeyboard` (its last row, after two rows per request) have a
previous-page button exactly when `page > 0`, carrying
`<domain>:page:<page-1>`, a next-page button exactly when `page < maxPage`,
carrying `<domain>:page:<page+1>`, and the label button `page+1` of
`maxPage+1` carrying `noop`. -/
theorem pagination_nav (groups : List GroupView) (reqs : List PendingView) (page total : Nat)
    (hpage : page ≤ MAX_SAFE_INTEGER) (htotal : total ≤ MAX_SAFE_INTEGER) :
    ∃ maxPage : Nat, (maxPage : Int) = max 0 (⌈(total : ℚ) / 8⌉ - 1) ∧
      (∃ kb nav, groupsKeyboard groups page total = some kb ∧
        kb.inline_keyboard[groups.length]? = some nav ∧
        kb.inline_keyboard.length = groups.length + 2 ∧
        NavSpec "grp" page maxPage nav) ∧
      (∃ kb nav, requestsKeyboard reqs page total = some kb ∧
        kb.inline_keyboard[2 * reqs.length]? = some nav ∧
        kb.inline_keyboard.length = 2 * reqs.length + 1 ∧
        NavSpec "req" page maxPage nav) := by
  obtain ⟨navG, hG, hGspec⟩ := navRow_spec "grp" page total hpage htotal
  obtain ⟨navR, hR, hRspec⟩ := navRow_spec "req" page total hpage htotal
  have hlen := requestRows_length reqs
  have hkG : groupsKeyboard groups page total =
      some { inline_keyboard := groups.map (fun g =>
        [{ text := g.name, callback_data := "grp:pick:" ++ toString g.id }]) ++ [navG] ++
        [[{ text := "➕ Добавить группу", callback_data := "grp:req:new" }]] } := by
    simp only [groupsKeyboard, hG]
  have hkR : requestsKeyboard reqs page total =
      some { inline_keyboard := (reqs.map requestRows).flatten ++ [navR] } := by
    simp only [requestsKeyboard, hR, List.length_append, List.length_cons, List.length_nil,
      ne_eq, Nat.add_one_ne_zero, not_false_eq_true, if_true]
  refine ⟨maxPageOf total, maxPageOf_eq total, ⟨_, navG, hkG, ?_, ?_, hGspec⟩,
    ⟨_, navR, hkR, ?_, ?_, hRspec⟩⟩
  · simp only [List.append_assoc]
    rw [List.getElem?_append_right (by simp)]
    simp
  · simp
  · simp only
    rw [← hlen, List.getElem?_append_right (le_refl _)]
    simp
  · simp [hlen]

theorem pagination_nav_witness :
    1 ≤ MAX_SAFE_INTEGER ∧ 17 ≤ MAX_SAFE_INTEGER ∧
    ∃ maxPage : Nat, (maxPage : Int) = max 0 (⌈((17 : Nat) : ℚ) / 8⌉ - 1) ∧
      (∃ kb nav, groupsKeyboard [{ id := 12, name := "Math" }] 1 17 = some kb ∧
        kb.inline_keyboard[[({ id := 12, name := "Math" } : GroupView)].length]? = some nav ∧
        kb.inline_keyboard.length = [({ id := 12, name := "Math" } : GroupView)].length + 2 ∧
        NavSpec "grp" 1 maxPage nav) ∧
      (∃ kb nav, requestsKeyboard [] 1 17 = some kb ∧
        kb.inline_keyboard[2 * ([] : List PendingView).length]? = some nav ∧
        kb.inline_keyboard.length = 2 * ([] : List PendingView).length + 1 ∧
        NavSpec "req" 1 maxPage nav) :=
  ⟨by decide, by decide,
   pagination_nav [{ id := 12, name := "Math" }] [] 1 17 (by decide) (by decide)⟩

/-! ## Decimal tokens: lemmas -/

theorem digitChar_mem (d : Nat) (h : d < 10) : Nat.digitChar d ∈ decimalDigits := by
  revert d
  decide

theorem digitChar_value (d : Nat) (h : d < 10) :
    (Nat.digitChar d).isDigit = true ∧ (Nat.digitChar d).toNat - 48 = d := by
  revert d
  decide

theorem decimalDigits_props (c : Char) (h : c ∈ decimalDigits) :
    c.isDigit = true ∧ isJsWhiteSpace c = false ∧ c ≠ ':' := by
  revert c
  decide

theorem toDigitsCore_spec (fuel : Nat) : ∀ (n : Nat) (ds : List Char), n < fuel →
    ∃ pre, Nat.toDigitsCore 10 fuel n ds = pre ++ ds ∧ pre ≠ [] ∧
      (∀ c ∈ pre, c ∈ decimalDigits) ∧
      ∀ rest, parseDigits (pre ++ rest) 0 = parseDigits rest n := by
  induction fuel with
  | zero => intro n ds h; omega
  | succ fuel ih =>
    intro n ds h
    have hd := digitChar_value (n % 10) (Nat.mod_lt _ (by decide))
    have hm := digitChar_mem (n % 10) (Nat.mod_lt _ (by decide))
    unfold Nat.toDigitsCore
    by_cases h0 : n / 10 = 0
    · refine ⟨[Nat.digitChar (n % 10)], ?_, ?_, ?_, ?_⟩
      · simp [h0]
      · simp
      · intro c hc
        rw [List.mem_singleton] at hc
        rw [hc]; exact hm
      · intro rest
        have hn : n % 10 = n := by omega
        simp only [List.singleton_append, parseDigits, hd.1, if_true, hd.2]
        rw [hn]
        simp
    · obtain ⟨pre, h1, h2, h3, h4⟩ := ih (n / 10) (Nat.digitChar (n % 10) :: ds) (by omega)
      refine ⟨pre ++ [Nat.digitChar (n % 10)], ?_, ?_, ?_, ?_⟩
      · simp [h0, h1]
      · simp
      · intro c hc
        rw [List.mem_append, List.mem_singleton] at hc
        rcases hc with hc | hc
        · exact h3 c hc
        · rw [hc]; exact hm
      · intro rest
        rw [List.append_assoc, h4]
        simp only [List.singleton_append, parseDigits, hd.1, if_true, hd.2]
        have hn : n / 10 * 10 + n % 10 = n := by omega
        rw [hn]
        rfl

theorem toString_nat_spec (n : Nat) :
    (toString n).data ≠ [] ∧ (∀ c ∈ (toString n).data, c ∈ decimalDigits) ∧
      parseDigits (toString n).data 0 = some n := by
  obtain ⟨pre, h1, h2, h3, h4⟩ := toDigitsCore_spec (n + 1) n [] (Nat.lt_succ_self n)
  have hdata : (toString n).data = pre := by
    show (Nat.repr n).data = pre
    unfold Nat.repr Nat.toDigits
    rw [h1]
    simp [List.asString]
  rw [hdata]
  refine ⟨h2, h3, ?_⟩
  have := h4 []
  simpa [parseDigits] using this


theorem dropWhile_of_head_false {α : Type} (p : α → Bool) (l : List α)
    (h : ∀ c ∈ l, p c = false) : l.dropWhile p = l := by
  cases l with
  | nil => rfl
  | cons x xs => simp [List.dropWhile_cons, h x (List.mem_cons_self x xs)]

theorem trim_of_no_space (s : String) (h : ∀ c ∈ s.data, isJsWhiteSpace c = false) :
    trim s = s := by
  unfold trim
  rw [dropWhile_of_head_false _ _ h,
    dropWhile_of_head_false _ _ (fun c hc => h c (List.mem_reverse.mp hc)), List.reverse_reverse]

theorem Number_toString (n : Nat) (hn : n ≤ MAX_SAFE_INTEGER) :
    Number (toString n) = some n := by
  obtain ⟨h1, h2, h3⟩ := toString_nat_spec n
  unfold Number
  rw [trim_of_no_space _ (fun c hc => (decimalDigits_props c (h2 c hc)).2.1)]
  simp only [h1, if_false, h3, hn, if_true]

theorem splitAux_no_sep (sep : Char) (l : List Char) (h : ∀ c ∈ l, c ≠ sep) :
    ∀ cur, splitAux sep l cur = [⟨(l.reverse ++ cur).reverse⟩] := by
  induction l with
  | nil => intro cur; simp [splitAux]
  | cons x xs ih =>
    intro cur
    have hx : x ≠ sep := h x (List.mem_cons_self x xs)
    rw [splitAux, if_neg hx, ih (fun c hc => h c (List.mem_cons_of_mem x hc))]
    simp

theorem pickToken_data (n : Nat) :
    ("grp:pick:" ++ toString n).data =
      'g' :: 'r' :: 'p' :: ':' :: 'p' :: 'i' :: 'c' :: 'k' :: ':' :: (toString n).data := by
  rw [String.data_append]
  rfl

theorem splitColon_pickToken (n : Nat) :
    (splitColon ("grp:pick:" ++ toString n))[2]? = some (toString n) := by
  obtain ⟨_, h2, _⟩ := toString_nat_spec n
  unfold splitColon
  rw [pickToken_data]
  simp only [splitAux]
  simp only [Char.reduceEq, if_false, if_true]
  rw [splitAux_no_sep _ _ (fun c hc => (decimalDigits_props c (h2 c hc)).2.2)]
  simp

theorem pickToken_tests (n : Nat) :
    ("grp:pick:" ++ toString n) ≠ "noop" ∧
    startsWith ("grp:pick:" ++ toString n) "grp:page:" = false ∧
    startsWith ("grp:pick:" ++ toString n) "grp:pick:" = true := by
  refine ⟨?_, ?_, ?_⟩
  · intro h
    have h2 := congrArg (fun s => s.data.head?) h
    simp [String.data_append] at h2
  · unfold startsWith
    rw [pickToken_data]
    change List.isPrefixOf ['g', 'r', 'p', ':', 'p', 'a', 'g', 'e', ':'] _ = false
    simp [List.isPrefixOf]
  · unfold startsWith
    rw [pickToken_data]
    change List.isPrefixOf ['g', 'r', 'p', ':', 'p', 'i', 'c', 'k', ':'] _ = true
    simp [List.isPrefixOf]


/-! ## Group assignment -/

theorem setUserGroup_assigned (db : Db) (tgId groupId : Nat) :
    (∃ r ∈ (setUserGroup db tgId groupId).user_group, r.user_tg_id = tgId) ∧
    (∀ r ∈ (setUserGroup db tgId groupId).user_group, r.user_tg_id = tgId →
      r.group_id = groupId) := by
  unfold setUserGroup
  by_cases h : db.user_group.any (fun r => r.user_tg_id == tgId) = true
  · rw [if_pos h]
    constructor
    · rw [List.any_eq_true] at h
      obtain ⟨r, hr, hrt⟩ := h
      exact ⟨_, List.mem_map_of_mem _ hr, by simp [beq_iff_eq.mp hrt]⟩
    · intro r hr hrt
      simp only [List.mem_map] at hr
      obtain ⟨r0, _, rfl⟩ := hr
      by_cases h0 : r0.user_tg_id = tgId
      · simp [h0]
      · simp [h0] at hrt
  · rw [if_neg h]
    constructor
    · exact ⟨_, List.mem_append_right _ (List.mem_singleton.mpr rfl), rfl⟩
    · intro r hr hrt
      simp only [List.mem_append, List.mem_singleton] at hr
      rcases hr with hr | hr
      · exact absurd (List.any_eq_true.mpr ⟨r, hr, by simp [hrt]⟩) h
      · rw [hr]

theorem onCallbackQuery_pick (E : SqlEngine) (now n : Nat) (q : CallbackQuery) (w : World)
    (hn : n ≤ MAX_SAFE_INTEGER) (hq : q.data = some ("grp:pick:" ++ toString n)) :
    onCallbackQuery E now q w =
      some { db := setUserGroup w.db q.from_id n,
             state := clearState w.state q.from_id,
             out := w.out ++ [Directive.answerCallbackQuery q.id (some "Группа выбрана ✅") false,
               Directive.sendMessage q.chat_id "Группа сохранена ✅" none],
             resolved := w.resolved } := by
  obtain ⟨t1, t2, t3⟩ := pickToken_tests n
  unfold onCallbackQuery
  simp only [hq, Option.getD_some, t1, t2, t3, if_false, if_true, splitColon_pickToken,
    Option.some_bind, Number_toString n hn, World.emit, List.append_assoc,
    List.singleton_append, Bool.false_eq_true]

/-- C9. Round trip of the pick button: for every group `g` whose id is a safe
integer (`0 .. 2^53 - 1`, the integers a JavaScript number holds exactly),
the keyboard that `groupsKeyboard` builds from a list with `g` (it builds one
for every page and total among the safe integers) has the row with the one
button labelled with the name of `g` and carrying
`grp:pick:<decimal id of g>`; and whatever the user, the database and the
session map (no entry for the user, or either waiting step), the callback
handler given that token returns, leaves the user with at least one row in
`user_group`, every row of the user pointing at `g.id`, and leaves no session
entry for the user, so that `getState` gives the default session
`{ step: null, temp: {} }`. -/
theorem pick_round_trip (E : SqlEngine) (now : Nat) (groups : List GroupView)
    (page total : Nat) (g : GroupView) (hg : g ∈ groups)
    (hid : g.id ≤ MAX_SAFE_INTEGER) (q : CallbackQuery) (w : World)
    (hq : q.data = some ("grp:pick:" ++ toString g.id)) :
    (page ≤ MAX_SAFE_INTEGER → total ≤ MAX_SAFE_INTEGER →
      ∃ kb, groupsKeyboard groups page total = some kb ∧
        [({ text := g.name, callback_data := "grp:pick:" ++ toString g.id } : Button)] ∈
          kb.inline_keyboard) ∧
    ∃ w1, onCallbackQuery E now q w = some w1 ∧
      (∃ r ∈ w1.db.user_group, r.user_tg_id = q.from_id) ∧
      (∀ r ∈ w1.db.user_group, r.user_tg_id = q.from_id → r.group_id = g.id) ∧
      mapGet w1.state q.from_id = none ∧
      getState w1.state q.from_id = { step := none, temp := [] } := by
  constructor
  · intro hpage htotal
    obtain ⟨nav, hnav, _⟩ := navRow_spec "grp" page total hpage htotal
    have hk : groupsKeyboard groups page total =
        some { inline_keyboard := groups.map (fun g =>
          [{ text := g.name, callback_data := "grp:pick:" ++ toString g.id }]) ++ [nav] ++
          [[{ text := "➕ Добавить группу", callback_data := "grp:req:new" }]] } := by
      simp only [groupsKeyboard, hnav]
    refine ⟨_, hk, ?_⟩
    simp only [List.append_assoc, List.mem_append, List.mem_map]
    exact Or.inl ⟨g, hg, rfl⟩
  · refine ⟨_, onCallbackQuery_pick E now g.id q w hid hq, ?_, ?_, ?_, ?_⟩
    · exact (setUserGroup_assigned w.db q.from_id g.id).1
    · exact (setUserGroup_assigned w.db q.from_id g.id).2
    · exact mapGet_clearState_self w.state q.from_id
    · exact getState_clearState_self w.state q.from_id

theorem pick_round_trip_witness :
    (12 : Nat) ≤ MAX_SAFE_INTEGER ∧
    (∃ kb, groupsKeyboard [{ id := 12, name := "Math" }] 0 1 = some kb ∧
      [({ text := "Math", callback_data := "grp:pick:12" } : Button)] ∈ kb.inline_keyboard) ∧
    ∃ w1, onCallbackQuery asciiEngine 0
        { id := "cb", from_id := 7, chat_id := 7, message_id := 1, data := some "grp:pick:12" }
        { db := { users := [], groups := [], user_group := [{ user_tg_id := 7, group_id := 3 }],
                  group_requests := [] },
          state := [(7, { step := some Step.AWAIT_GROUP_NAME_FOR_REQUEST, temp := [] })],
          out := [], resolved := [] } = some w1 ∧
      (∀ r ∈ w1.db.user_group, r.user_tg_id = 7 → r.group_id = 12) ∧
      getState w1.state 7 = { step := none, temp := [] } :=
  have h := pick_round_trip asciiEngine 0 [{ id := 12, name := "Math" }] 0 1
    { id := 12, name := "Math" } (by decide) (by decide)
    { id := "cb", from_id := 7, chat_id := 7, message_id := 1, data := some "grp:pick:12" }
    { db := { users := [], groups := [], user_group := [{ user_tg_id := 7, group_id := 3 }],
              group_requests := [] },
      state := [(7, { step := some Step.AWAIT_GROUP_NAME_FOR_REQUEST, temp := [] })],
      out := [], resolved := [] } (by decide)
  ⟨by decide, h.1 (by decide) (by decide),
    h.2.choose, h.2.choose_spec.1, h.2.choose_spec.2.2.1, h.2.choose_spec.2.2.2.2⟩

/-! ## Admin actions -/

theorem startsWith_data (s p : String) (h : startsWith s p = true) :
    ∃ rest, s.data = p.data ++ rest := by
  unfold startsWith at h
  rw [List.isPrefixOf_iff_prefix] at h
  obtain ⟨rest, hrest⟩ := h
  exact ⟨rest, hrest.symm⟩

theorem reqToken_tests (token : String) (rest : List Char)
    (h : token.data = 'r' :: 'e' :: 'q' :: ':' :: rest) :
    token ≠ "noop" ∧ startsWith token "grp:page:" = false ∧
      startsWith token "grp:pick:" = false ∧ token ≠ "grp:req:new" := by
  refine ⟨?_, ?_, ?_, ?_⟩
  · intro h0
    rw [h0] at h
    change ['n', 'o', 'o', 'p'] = _ at h
    simp at h
  · unfold startsWith
    rw [h]
    change List.isPrefixOf ['g', 'r', 'p', ':', 'p', 'a', 'g', 'e', ':'] _ = false
    simp [List.isPrefixOf]
  · unfold startsWith
    rw [h]
    change List.isPrefixOf ['g', 'r', 'p', ':', 'p', 'i', 'c', 'k', ':'] _ = false
    simp [List.isPrefixOf]
  · intro h0
    rw [h0] at h
    change 'g' :: _ = _ at h
    simp at h

theorem getUserRole_ne_admin (db : Db) (tgId : Nat)
    (h : ∀ u ∈ db.users, u.tg_id = tgId → u.role ≠ some "admin") :
    getUserRole db tgId ≠ "admin" := by
  unfold getUserRole
  cases hh : (db.users.filter (fun u => u.tg_id == tgId)).head? with
  | none => simp
  | some u =>
    have hu : u ∈ db.users.filter (fun u => u.tg_id == tgId) := List.mem_of_mem_head? hh
    rw [List.mem_filter] at hu
    have hr := h u hu.1 (beq_iff_eq.mp hu.2)
    rcases u with ⟨uid, urole⟩
    cases urole with
    | none => simp
    | some r =>
      by_cases hr0 : r = ""
      · simp [hr0]
      · simp only [hr0, if_false]
        intro hra
        exact hr (by rw [hra])

/-- C5. Admin actions of a non-admin: for every database, session map and
callback query whose token starts with `req:page:`, `req:approve:` or
`req:reject:`, sent by a user none of whose rows in `users` has the role
`admin` (a user without a row included), the callback handler returns and
its only effect is the acknowledgement "Недостаточно прав" shown as an alert:
the database (requests, groups, assignments), the session map and the list
of resolver calls are unchanged and no other directive, so no message to a
requester, is emitted. -/
theorem non_admin_denied (E : SqlEngine) (now : Nat) (q : CallbackQuery) (w : World)
    (token : String) (hq : q.data = some token)
    (htok : startsWith token "req:page:" = true ∨ startsWith token "req:approve:" = true ∨
      startsWith token "req:reject:" = true)
    (hrole : ∀ u ∈ w.db.users, u.tg_id = q.from_id → u.role ≠ some "admin") :
    onCallbackQuery E now q w =
      some { w with out := w.out ++
        [Directive.answerCallbackQuery q.id (some "Недостаточно прав") true] } := by
  have hr := getUserRole_ne_admin w.db q.from_id hrole
  rcases htok with h | h | h
  · obtain ⟨rest, hd⟩ := startsWith_data _ _ h
    obtain ⟨t1, t2, t3, t4⟩ := reqToken_tests token _ hd
    unfold onCallbackQuery
    simp only [hq, Option.getD_some, t1, t2, t3, t4, h, hr, if_false, if_true, World.emit,
      Bool.false_eq_true, ne_eq, not_false_eq_true]
  · obtain ⟨rest, hd⟩ := startsWith_data _ _ h
    obtain ⟨t1, t2, t3, t4⟩ := reqToken_tests token _ hd
    have t5 : startsWith token "req:page:" = false := by
      unfold startsWith
      rw [hd]
      change List.isPrefixOf ['r', 'e', 'q', ':', 'p', 'a', 'g', 'e', ':']
        ('r' :: 'e' :: 'q' :: ':' :: 'a' :: _) = false
      simp [List.isPrefixOf]
    unfold onCallbackQuery
    simp only [hq, Option.getD_some, t1, t2, t3, t4, t5, h, hr, if_false, if_true, World.emit,
      Bool.false_eq_true, ne_eq, not_false_eq_true]
  · obtain ⟨rest, hd⟩ := startsWith_data _ _ h
    obtain ⟨t1, t2, t3, t4⟩ := reqToken_tests token _ hd
    have t5 : startsWith token "req:page:" = false := by
      unfold startsWith
      rw [hd]
      change List.isPrefixOf ['r', 'e', 'q', ':', 'p', 'a', 'g', 'e', ':']
        ('r' :: 'e' :: 'q' :: ':' :: 'r' :: _) = false
      simp [List.isPrefixOf]
    have t6 : startsWith token "req:approve:" = false := by
      unfold startsWith
      rw [hd]
      change List.isPrefixOf ['r', 'e', 'q', ':', 'a', 'p', 'p', 'r', 'o', 'v', 'e', ':']
        ('r' :: 'e' :: 'q' :: ':' :: 'r' :: _) = false
      simp [List.isPrefixOf]
    unfold onCallbackQuery
    simp only [hq, Option.getD_some, t1, t2, t3, t4, t5, t6, h, hr, if_false, if_true,
      World.emit, Bool.false_eq_true, ne_eq, not_false_eq_true]

theorem non_admin_denied_witness :
    onCallbackQuery asciiEngine 9
      { id := "cb", from_id := 5, chat_id := 5, message_id := 1, data := some "req:approve:7" }
      { db := biologyDb, state := [], out := [], resolved := [] } =
    some { db := biologyDb, state := [],
           out := [Directive.answerCallbackQuery "cb" (some "Недостаточно прав") true],
           resolved := [] } :=
  non_admin_denied asciiEngine 9
    { id := "cb", from_id := 5, chat_id := 5, message_id := 1, data := some "req:approve:7" }
    { db := biologyDb, state := [], out := [], resolved := [] }
    "req:approve:7" rfl (Or.inr (Or.inl (by decide))) (by decide)


/-! ## Approval and the registry -/

theorem groupExists_iff (E : SqlEngine) (db : Db) (name : String) :
    groupExists E db name = true ↔
      ∃ g ∈ db.groups, E.LOWER g.name = E.LOWER (trim name) := by
  unfold groupExists
  rw [decide_eq_true_iff, gt_iff_lt, List.length_pos, Ne, List.take_eq_nil_iff]
  simp only [OfNat.ofNat_ne_zero, false_or, List.filter_eq_nil_iff, beq_iff_eq, not_forall,
    not_not, exists_prop, one_ne_zero]

theorem take_one_of_all_eq {α : Type} (l : List α) (a : α) (hne : l ≠ [])
    (hall : ∀ x ∈ l, x = a) : l.take 1 = [a] := by
  cases l with
  | nil => exact absurd rfl hne
  | cons x xs =>
    rw [hall x (List.mem_cons_self x xs)]
    rfl

theorem selectPending_of_mem (db : Db) (r : RequestRow) (hr : r ∈ db.group_requests)
    (hp : r.status = Status.pending)
    (hkey : ∀ x ∈ db.group_requests, x.id = r.id → x = r) :
    selectPending db r.id = [r.view] := by
  unfold selectPending
  rw [take_one_of_all_eq _ r]
  · rfl
  · intro h0
    have hmem : r ∈ db.group_requests.filter
        (fun x => x.id == r.id && x.status == Status.pending) := by
      rw [List.mem_filter]
      exact ⟨hr, by simp [hp]⟩
    rw [h0] at hmem
    cases hmem
  · intro x hx
    rw [List.mem_filter] at hx
    simp only [Bool.and_eq_true, beq_iff_eq] at hx
    exact hkey x hx.1 hx.2.1

theorem updateDecision_of_key (db : Db) (status : Status) (adminTgId now : Nat)
    (r : RequestRow) (hkey : ∀ x ∈ db.group_requests, x.id = r.id → x = r) :
    (updateDecision db status adminTgId r.id now).group_requests =
      db.group_requests.map (fun x =>
        if x = r then
          { r with status := status, decided_by_tg_id := some adminTgId,
                   decided_at := some now }
        else x) := by
  unfold updateDecision
  apply List.map_congr_left
  intro x hx
  by_cases hid : x.id = r.id
  · have hxr := hkey x hx hid
    simp [hxr]
  · have hxr : x ≠ r := fun e => hid (by rw [e])
    simp [hid, hxr]

theorem approveRequest_of_mem (E : SqlEngine) (db : Db) (now adminTgId : Nat)
    (r : RequestRow) (hr : r ∈ db.group_requests) (hp : r.status = Status.pending)
    (hkey : ∀ x ∈ db.group_requests, x.id = r.id → x = r) :
    approveRequest E db now adminTgId r.id =
      (some r.view,
        updateDecision
          (if !groupExists E db r.requested_name then insertGroup db r.requested_name else db)
          Status.approved adminTgId r.id now) := by
  unfold approveRequest
  rw [selectPending_of_mem db r hr hp hkey]
  rfl

/-- C2. The code breaks the claim in `paddedDb`: the request `7` is pending
and the group ` bio` has the very name the request asks for, yet
`groupExists` compares with the trimmed `bio`, answers that no such group
exists, and `approveRequest` returns the request, marks it approved and
inserts a second group ` bio`, where the claim (and the comment above the
test in `approveRequest`) has the request approved and no group row added. -/
theorem approve_padded_name_inserts_duplicate :
    (∃ r ∈ paddedDb.group_requests, r.id = 7 ∧ r.status = Status.pending ∧
      ∃ g ∈ paddedDb.groups, asciiEngine.LOWER g.name = asciiEngine.LOWER r.requested_name) ∧
    groupExists asciiEngine paddedDb " bio" = false ∧
    (approveRequest asciiEngine paddedDb 0 1 7).1 =
      some { id := 7, requested_name := " bio", requested_by_tg_id := 6 } ∧
    (approveRequest asciiEngine paddedDb 0 1 7).2.group_requests =
      [{ id := 7, requested_name := " bio", requested_by_tg_id := 6,
         status := Status.approved, decided_by_tg_id := some 1, decided_at := some 0,
         created_at := 1 }] ∧
    (approveRequest asciiEngine paddedDb 0 1 7).2.groups =
      [{ id := 1, name := " bio", is_active := true },
       { id := 2, name := " bio", is_active := true }] := by
  decide

/-- Approval of a request whose name is trimmed.  In every database where `r`
is the request with id `r.id`, is pending, and its requested name is already
trimmed (as every name stored by `createGroupRequest` is),
`approveRequest(admin, r.id)` returns `r`, turns
the row of `r` into an approved one decided by `admin` at the time of the
call and leaves the other requests as they are; if a group whose name equals
the requested name after `LOWER` exists, the table of groups is unchanged;
if none exists, exactly one group row, named as requested, is added. -/
theorem approve_existing_group (E : SqlEngine) (db : Db) (now adminTgId : Nat)
    (r : RequestRow) (hr : r ∈ db.group_requests) (hp : r.status = Status.pending)
    (hkey : ∀ x ∈ db.group_requests, x.id = r.id → x = r)
    (htrim : trim r.requested_name = r.requested_name) :
    (approveRequest E db now adminTgId r.id).1 = some r.view ∧
    (approveRequest E db now adminTgId r.id).2.group_requests =
      db.group_requests.map (fun x =>
        if x = r then
          { r with status := Status.approved, decided_by_tg_id := some adminTgId,
                   decided_at := some now }
        else x) ∧
    ((∃ g ∈ db.groups, E.LOWER g.name = E.LOWER r.requested_name) →
      (approveRequest E db now adminTgId r.id).2.groups = db.groups) ∧
    ((¬ ∃ g ∈ db.groups, E.LOWER g.name = E.LOWER r.requested_name) →
      ∃ g, g.name = r.requested_name ∧
        (approveRequest E db now adminTgId r.id).2.groups = db.groups ++ [g]) := by
  rw [approveRequest_of_mem E db now adminTgId r hr hp hkey]
  have hex := groupExists_iff E db r.requested_name
  rw [htrim] at hex
  refine ⟨rfl, ?_, ?_, ?_⟩
  · by_cases h : groupExists E db r.requested_name = true
    · simp only [h, Bool.not_true, Bool.false_eq_true, if_false]
      exact updateDecision_of_key db _ adminTgId now r hkey
    · simp only [h, Bool.not_false, if_true, Bool.not_eq_true, Bool.not_true]
      exact updateDecision_of_key (insertGroup db r.requested_name) _ adminTgId now r hkey
  · intro hg
    have h := hex.mpr hg
    simp only [h, Bool.not_true, Bool.false_eq_true, if_false]
    rfl
  · intro hg
    have h : groupExists E db r.requested_name = false := by
      rw [← Bool.not_eq_true]
      exact fun h => hg (hex.mp h)
    simp only [h, Bool.not_false, if_true]
    exact ⟨_, rfl, rfl⟩

theorem approve_existing_group_witness :
    (approveRequest asciiEngine biologyDb 3 1 7).1 =
      some { id := 7, requested_name := "biology", requested_by_tg_id := 6 } ∧
    (approveRequest asciiEngine biologyDb 3 1 7).2.groups = biologyDb.groups :=
  have h := approve_existing_group asciiEngine biologyDb 3 1
    { id := 7, requested_name := "biology", requested_by_tg_id := 6,
      status := Status.pending, decided_by_tg_id := none, decided_at := none,
      created_at := 1 }
    (by decide) (by decide) (by decide) (by decide)
  ⟨h.1, h.2.2.1 (by decide)⟩


/-! ## Text messages -/

theorem head_of_dropWhile {α : Type} (p : α → Bool) (l : List α) (x : α) (t : List α)
    (h : l.dropWhile p = x :: t) : p x = false := by
  induction l with
  | nil => cases h
  | cons y ys ih =>
    rw [List.dropWhile_cons] at h
    cases hy : p y with
    | true =>
      rw [hy] at h
      exact ih h
    | false =>
      rw [hy] at h
      simp only [Bool.false_eq_true, if_false, List.cons.injEq] at h
      rw [← h.1]
      exact hy

theorem trim_trim (s : String) : trim (trim s) = trim s := by
  unfold trim
  simp only
  congr 1
  have hb : ((s.data.dropWhile isJsWhiteSpace).reverse.dropWhile isJsWhiteSpace).reverse =
      List.rdropWhile isJsWhiteSpace (s.data.dropWhile isJsWhiteSpace) := rfl
  rw [hb]
  have hpre : List.rdropWhile isJsWhiteSpace (s.data.dropWhile isJsWhiteSpace) <+:
      s.data.dropWhile isJsWhiteSpace := List.rdropWhile_prefix _ _
  have hd : (List.rdropWhile isJsWhiteSpace (s.data.dropWhile isJsWhiteSpace)).dropWhile
      isJsWhiteSpace = List.rdropWhile isJsWhiteSpace (s.data.dropWhile isJsWhiteSpace) := by
    generalize List.rdropWhile isJsWhiteSpace (s.data.dropWhile isJsWhiteSpace) = b at hpre
    cases b with
    | nil => rfl
    | cons x xs =>
      obtain ⟨t, ht⟩ := hpre
      have hx := head_of_dropWhile isJsWhiteSpace s.data x (xs ++ t) (by rw [← ht]; rfl)
      simp [List.dropWhile_cons, hx]
  rw [hd]
  exact List.rdropWhile_idempotent _ _

theorem onMessage_naming (E : SqlEngine) (now : Nat) (msg : Message) (w : World)
    (text : String) (htext : msg.text = some text)
    (hcmd : (text = "" || startsWith text "/") = false)
    (hstep : (getState w.state msg.from_id).step = some Step.AWAIT_GROUP_NAME_FOR_REQUEST) :
    onMessage E now msg w =
      if jsLength (trim text) < 2 then
        some (w.emit (Directive.sendMessage msg.chat_id
          "Название слишком короткое. Введи ещё раз." none))
      else if groupExists E w.db (trim text) then
        some (w.emit (Directive.sendMessage msg.chat_id
          "Такая группа уже существует. Напиши /start и выбери её." none))
      else if pendingRequestExists E w.db (trim text) then
        some (w.emit (Directive.sendMessage msg.chat_id
          "Заявка на такую группу уже ожидает решения администратора." none))
      else
        some ({ db := createGroupRequest w.db now msg.from_id (trim text),
                state := clearState w.state msg.from_id,
                out := w.out ++ [Directive.sendMessage msg.chat_id
                  "Заявка отправлена администратору ✅" none],
                resolved := w.resolved }) := by
  unfold onMessage
  simp only [htext, hcmd, hstep, if_true, Bool.false_eq_true, if_false]
  rfl

theorem onMessage_ignored (E : SqlEngine) (now : Nat) (msg : Message) (w : World)
    (text : String) (htext : msg.text = some text)
    (hcmd : (text = "" || startsWith text "/") = true) :
    onMessage E now msg w = some w := by
  unfold onMessage
  simp only [htext, hcmd, if_true]

/-- C4, as the claim states it, fails: in `namingWorld` user `5` is at the
step `AWAIT_GROUP_NAME_FOR_REQUEST` and the group `A` equals the text `a`
after `LOWER`, yet the reply is that the name is too short, not that the
group exists. -/
theorem duplicate_name_counterexample :
    (getState namingWorld.state 5).step = some Step.AWAIT_GROUP_NAME_FOR_REQUEST ∧
    (∃ g ∈ namingWorld.db.groups, asciiEngine.LOWER g.name = asciiEngine.LOWER (trim "a")) ∧
    onMessage asciiEngine 0 { from_id := 5, chat_id := 5, text := some "a" } namingWorld =
      some { namingWorld with out :=
        [Directive.sendMessage 5 "Название слишком короткое. Введи ещё раз." none] } := by
  decide

/-- C4, amended. For every world and every text message received while the
sender is at the step `AWAIT_GROUP_NAME_FOR_REQUEST`, if a group exists whose
name equals the trimmed text after `LOWER`, the handler returns and leaves the
database (so the table of requests) and the session map unchanged; and when
moreover the text is not a command and its trimmed form has at least two
UTF-16 code units, the one directive it emits is the reply that the group
already exists. -/
theorem duplicate_name_rejected (E : SqlEngine) (now : Nat) (msg : Message) (w : World)
    (text : String) (htext : msg.text = some text)
    (hstep : (getState w.state msg.from_id).step = some Step.AWAIT_GROUP_NAME_FOR_REQUEST)
    (hg : ∃ g ∈ w.db.groups, E.LOWER g.name = E.LOWER (trim text)) :
    ∃ w1, onMessage E now msg w = some w1 ∧ w1.db = w.db ∧ w1.state = w.state ∧
      (startsWith text "/" = false → 2 ≤ jsLength (trim text) →
        w1.out = w.out ++ [Directive.sendMessage msg.chat_id
          "Такая группа уже существует. Напиши /start и выбери её." none]) := by
  have hex : groupExists E w.db (trim text) = true := by
    rw [groupExists_iff, trim_trim]
    exact hg
  by_cases hcmd : (text = "" || startsWith text "/") = true
  · refine ⟨w, onMessage_ignored E now msg w text htext hcmd, rfl, rfl, ?_⟩
    intro hslash hlen
    rw [Bool.or_eq_true, hslash] at hcmd
    simp only [Bool.false_eq_true, or_false, decide_eq_true_eq] at hcmd
    rw [hcmd] at hlen
    exact absurd hlen (by decide)
  · rw [Bool.not_eq_true] at hcmd
    rw [onMessage_naming E now msg w text htext hcmd hstep]
    by_cases hlen : jsLength (trim text) < 2
    · rw [if_pos hlen]
      exact ⟨_, rfl, rfl, rfl, fun _ h2 => absurd hlen (by omega)⟩
    · rw [if_neg hlen, if_pos hex]
      exact ⟨_, rfl, rfl, rfl, fun _ _ => rfl⟩

theorem duplicate_name_rejected_witness :
    ∃ w1, onMessage asciiEngine 4 { from_id := 5, chat_id := 5, text := some " biology " }
        { db := biologyDb,
          state := [(5, { step := some Step.AWAIT_GROUP_NAME_FOR_REQUEST, temp := [] })],
          out := [], resolved := [] } = some w1 ∧
      w1.db = biologyDb ∧
      w1.out = [Directive.sendMessage 5
        "Такая группа уже существует. Напиши /start и выбери её." none] :=
  have h := duplicate_name_rejected asciiEngine 4
    { from_id := 5, chat_id := 5, text := some " biology " }
    { db := biologyDb,
      state := [(5, { step := some Step.AWAIT_GROUP_NAME_FOR_REQUEST, temp := [] })],
      out := [], resolved := [] }
    " biology " rfl (by decide) (by decide)
  ⟨h.choose, h.choose_spec.1, h.choose_spec.2.1,
    h.choose_spec.2.2.2 (by decide) (by decide)⟩

/-- C6. The code breaks the claim in `pickingWorld`: user `5` is at the step
`AWAIT_GROUP_PICK` and the text `a` has one character, yet the handler makes
no length check in this branch (the branch of `AWAIT_GROUP_NAME_FOR_REQUEST`
makes one): the text is handed to `findGroupByText`, the group `Math` is
assigned to the user and the session entry of the user is removed, where the
claim has the text rejected, no group assigned and the session unchanged. -/
theorem short_text_resolved :
    (getState pickingWorld.state 5).step = some Step.AWAIT_GROUP_PICK ∧
    jsLength (trim "a") < 2 ∧
    onMessage asciiEngine 0 { from_id := 5, chat_id := 5, text := some "a" } pickingWorld =
      some { db := { pickingWorld.db with user_group := [{ user_tg_id := 5, group_id := 1 }] },
             state := [],
             out := [Directive.sendMessage 5 "Группа выбрана: Math ✅" none],
             resolved := ["a"] } := by
  decide

/-- The length check of the step `AWAIT_GROUP_NAME_FOR_REQUEST`.  For every
world and every text message received while the sender is at that step, if
the trimmed text has
fewer than two UTF-16 code units, the handler returns without handing
anything to `findGroupByText`, the database (so every group assignment and
the table of requests) and the session map are unchanged, and the message is
either ignored (an empty text or a command) or answered with the one reply
that the name is too short. -/
theorem short_name_rejected (E : SqlEngine) (now : Nat) (msg : Message) (w : World)
    (text : String) (htext : msg.text = some text)
    (hstep : (getState w.state msg.from_id).step = some Step.AWAIT_GROUP_NAME_FOR_REQUEST)
    (hshort : jsLength (trim text) < 2) :
    onMessage E now msg w =
      some (if (text = "" || startsWith text "/") = true then w
        else { w with out := w.out ++ [Directive.sendMessage msg.chat_id
          "Название слишком короткое. Введи ещё раз." none] }) := by
  by_cases hcmd : (text = "" || startsWith text "/") = true
  · rw [if_pos hcmd]
    exact onMessage_ignored E now msg w text htext hcmd
  · rw [if_neg hcmd]
    rw [Bool.not_eq_true] at hcmd
    rw [onMessage_naming E now msg w text htext hcmd hstep, if_pos hshort]
    rfl

theorem short_name_rejected_witness :
    onMessage asciiEngine 0 { from_id := 5, chat_id := 5, text := some " x " } namingWorld =
      some { namingWorld with out :=
        [Directive.sendMessage 5 "Название слишком короткое. Введи ещё раз." none] } :=
  short_name_rejected asciiEngine 0 { from_id := 5, chat_id := 5, text := some " x " }
    namingWorld " x " rfl (by decide) (by decide)

/-! ## The pending-name invariant -/

theorem findGroupByText_rows (E : SqlEngine) (db : Db) (text : String)
    (h : (findGroupByText E db text).type = "exact" ∨
      (findGroupByText E db text).type = "single") :
    (findGroupByText E db text).rows ≠ [] := by
  unfold findGroupByText at h ⊢
  simp only at h ⊢
  by_cases h1 : (exactRows E db (trim text)).length ≠ 0
  · rw [if_pos h1]
    intro h0
    exact h1 (by rw [show exactRows E db (trim text) = [] from h0]; rfl)
  · rw [if_neg h1] at h ⊢
    by_cases h2 : (likeRows E db (trim text)).length = 1
    · rw [if_pos h2]
      intro h0
      rw [show likeRows E db (trim text) = [] from h0] at h2
      cases h2
    · rw [if_neg h2] at h
      by_cases h3 : (likeRows E db (trim text)).length > 1
      · rw [if_pos h3] at h
        change "many" = "exact" ∨ "many" = "single" at h
        exact absurd h (by decide)
      · rw [if_neg h3] at h
        change "none" = "exact" ∨ "none" = "single" at h
        exact absurd h (by decide)

theorem pendingRequestExists_false (E : SqlEngine) (db : Db) (name : String)
    (h : pendingRequestExists E db name = false) :
    ∀ r ∈ db.group_requests, r.status = Status.pending →
      E.LOWER r.requested_name ≠ E.LOWER (trim name) := by
  unfold pendingRequestExists at h
  rw [decide_eq_false_iff_not, gt_iff_lt, List.length_pos, not_not, List.take_eq_nil_iff] at h
  simp only [OfNat.ofNat_ne_zero, false_or, List.filter_eq_nil_iff, Bool.and_eq_true,
    beq_iff_eq, not_and, one_ne_zero] at h
  intro r hr hp heq
  exact h r hr heq hp

theorem PendingUnique_createGroupRequest (E : SqlEngine) (db : Db) (now tgId : Nat)
    (name : String) (hinv : PendingUnique E db)
    (h : pendingRequestExists E db name = false) :
    PendingUnique E (createGroupRequest db now tgId name) := by
  have hno := pendingRequestExists_false E db name h
  unfold PendingUnique createGroupRequest at *
  simp only [List.filter_append, List.pairwise_append]
  refine ⟨hinv, ?_, ?_⟩
  · simp [List.filter_cons, defaultStatus]
  · intro a ha b hb
    rw [List.mem_filter] at ha
    simp only [List.filter_cons, defaultStatus, beq_self_eq_true, if_true, List.filter_nil,
      List.mem_singleton] at hb
    rw [hb]
    exact hno a ha.1 (beq_iff_eq.mp ha.2)

theorem PendingUnique_updateDecision (E : SqlEngine) (db : Db) (status : Status)
    (adminTgId requestId now : Nat) (hs : status ≠ Status.pending)
    (hinv : PendingUnique E db) :
    PendingUnique E (updateDecision db status adminTgId requestId now) := by
  unfold PendingUnique updateDecision at *
  simp only
  have hsub : ∀ l : List RequestRow,
      List.Sublist
        ((l.map (fun r =>
          if r.id == requestId then
            { r with status := status, decided_by_tg_id := some adminTgId,
                     decided_at := some now }
          else r)).filter (fun r => r.status == Status.pending))
        (l.filter (fun r => r.status == Status.pending)) := by
    intro l
    induction l with
    | nil => exact List.Sublist.refl _
    | cons x xs ih =>
      by_cases hid : x.id = requestId
      · have hx : (status == Status.pending) = false := by
          rw [beq_eq_false_iff_ne]; exact hs
        simp only [List.map_cons, hid, beq_self_eq_true, if_true, List.filter_cons, hx,
          Bool.false_eq_true, if_false]
        split
        · exact List.Sublist.cons _ ih
        · exact ih
      · have hid2 : (x.id == requestId) = false := by
          rw [beq_eq_false_iff_ne]; exact hid
        simp only [List.map_cons, hid2, Bool.false_eq_true, if_false, List.filter_cons]
        split
        · exact List.Sublist.cons₂ _ ih
        · exact ih
  exact List.Pairwise.sublist (hsub _) hinv

theorem PendingUnique_insertGroup (E : SqlEngine) (db : Db) (name : String)
    (hinv : PendingUnique E db) : PendingUnique E (insertGroup db name) := hinv

theorem PendingUnique_approveRequest (E : SqlEngine) (db : Db) (now adminTgId requestId : Nat)
    (hinv : PendingUnique E db) :
    PendingUnique E (approveRequest E db now adminTgId requestId).2 := by
  unfold approveRequest
  cases h : selectPending db requestId with
  | nil => exact hinv
  | cons req rest =>
    simp only
    apply PendingUnique_updateDecision E _ _ _ _ _ (by decide)
    split
    · exact PendingUnique_insertGroup E db _ hinv
    · exact hinv

theorem PendingUnique_rejectRequest (E : SqlEngine) (db : Db) (now adminTgId requestId : Nat)
    (hinv : PendingUnique E db) :
    PendingUnique E (rejectRequest db now adminTgId requestId).2 := by
  unfold rejectRequest
  cases h : selectPending db requestId with
  | nil => exact hinv
  | cons req rest => exact PendingUnique_updateDecision E _ _ _ _ _ (by decide) hinv

theorem PendingUnique_setUserGroup (E : SqlEngine) (db : Db) (tgId groupId : Nat)
    (hinv : PendingUnique E db) : PendingUnique E (setUserGroup db tgId groupId) := by
  unfold setUserGroup
  split
  · exact hinv
  · exact hinv

theorem PendingUnique_onMessage (E : SqlEngine) (now : Nat) (msg : Message) (w : World)
    (hinv : PendingUnique E w.db) :
    ∃ w1, onMessage E now msg w = some w1 ∧ PendingUnique E w1.db := by
  unfold onMessage
  cases htext : msg.text with
  | none => exact ⟨w, rfl, hinv⟩
  | some text =>
    simp only
    split
    · exact ⟨w, rfl, hinv⟩
    · split
      · split
        · exact ⟨_, rfl, hinv⟩
        · split
          · exact ⟨_, rfl, hinv⟩
          · split
            · exact ⟨_, rfl, hinv⟩
            · rename_i hp
              rw [Bool.not_eq_true] at hp
              exact ⟨_, rfl, PendingUnique_createGroupRequest E w.db now _ _ hinv hp⟩
      · split
        · split
          · rename_i hty
            have hrows := findGroupByText_rows E w.db text (by
              simpa [Bool.or_eq_true, decide_eq_true_eq] using hty)
            cases hh : (findGroupByText E w.db text).rows.head? with
            | none =>
              rw [List.head?_eq_none_iff] at hh
              exact absurd hh hrows
            | some g =>
              exact ⟨_, rfl, PendingUnique_setUserGroup E w.db _ _ hinv⟩
          · split
            · exact ⟨_, rfl, hinv⟩
            · exact ⟨_, rfl, hinv⟩
        · exact ⟨w, rfl, hinv⟩

theorem PendingUnique_handle (E : SqlEngine) (e : Event) (w : World)
    (hinv : PendingUnique E w.db) :
    ∃ w1, handle E w e = some w1 ∧ PendingUnique E w1.db := by
  cases e with
  | message now msg => exact PendingUnique_onMessage E now msg w hinv
  | approve now adminTgId requestId =>
    exact ⟨_, rfl, PendingUnique_approveRequest E w.db now adminTgId requestId hinv⟩
  | reject now adminTgId requestId =>
    exact ⟨_, rfl, PendingUnique_rejectRequest E w.db now adminTgId requestId hinv⟩

/-- C7. Pending-name uniqueness is an invariant of sequential event handling:
from a world whose pending requests have pairwise different names after
`LOWER`, every sequence of text messages, `approveRequest` calls and
`rejectRequest` calls, handled one after the other, runs to its end and
reaches a world whose pending requests again have pairwise different names
after `LOWER`. -/
theorem pending_unique_invariant (E : SqlEngine) (events : List Event) (w : World)
    (hinv : PendingUnique E w.db) :
    ∃ w1, run E events w = some w1 ∧ PendingUnique E w1.db := by
  induction events generalizing w with
  | nil => exact ⟨w, rfl, hinv⟩
  | cons e es ih =>
    obtain ⟨w1, h1, hinv1⟩ := PendingUnique_handle E e w hinv
    obtain ⟨w2, h2, hinv2⟩ := ih w1 hinv1
    refine ⟨w2, ?_, hinv2⟩
    simp only [run, h1, Option.some_bind, h2]

theorem pending_unique_invariant_witness :
    PendingUnique asciiEngine biologyDb ∧
    ∃ w1, run asciiEngine
        [Event.message 2 { from_id := 5, chat_id := 5, text := some " Chem " },
         Event.message 3 { from_id := 8, chat_id := 8, text := some "chem" },
         Event.approve 4 1 7]
        { db := biologyDb,
          state := [(5, { step := some Step.AWAIT_GROUP_NAME_FOR_REQUEST, temp := [] }),
                    (8, { step := some Step.AWAIT_GROUP_NAME_FOR_REQUEST, temp := [] })],
          out := [], resolved := [] } = some w1 ∧
      PendingUnique asciiEngine w1.db :=
  ⟨by decide,
   pending_unique_invariant asciiEngine
    [Event.message 2 { from_id := 5, chat_id := 5, text := some " Chem " },
     Event.message 3 { from_id := 8, chat_id := 8, text := some "chem" },
     Event.approve 4 1 7]
    { db := biologyDb,
      state := [(5, { step := some Step.AWAIT_GROUP_NAME_FOR_REQUEST, temp := [] }),
                (8, { step := some Step.AWAIT_GROUP_NAME_FOR_REQUEST, temp := [] })],
      out := [], resolved := [] } (by decide)⟩

/-- At the step `AWAIT_GROUP_PICK` every text that is not a command is handed
to `findGroupByText`, whatever its length, and the handler returns. -/
theorem onMessage_picking_resolves (E : SqlEngine) (now : Nat) (msg : Message) (w : World)
    (text : String) (htext : msg.text = some text)
    (hcmd : (text = "" || startsWith text "/") = false)
    (hstep : (getState w.state msg.from_id).step = some Step.AWAIT_GROUP_PICK) :
    ∃ w1, onMessage E now msg w = some w1 ∧ w1.resolved = w.resolved ++ [text] := by
  unfold onMessage
  simp only [htext, hcmd, hstep, Bool.false_eq_true, if_false, if_true]
  have hne : ¬ (some Step.AWAIT_GROUP_PICK = some Step.AWAIT_GROUP_NAME_FOR_REQUEST) := by
    decide
  rw [if_neg hne]
  split
  · rename_i hty
    have hrows := findGroupByText_rows E w.db text (by
      simpa [Bool.or_eq_true, decide_eq_true_eq] using hty)
    cases hh : (findGroupByText E w.db text).rows.head? with
    | none =>
      rw [List.head?_eq_none_iff] at hh
      exact absurd hh hrows
    | some g => exact ⟨_, rfl, rfl⟩
  · split
    · exact ⟨_, rfl, rfl⟩
    · exact ⟨_, rfl, rfl⟩

end UniversityTgBot
